import Mathlib

/-!
Verification of the NetConf_Parser topology-inference and layout engines.

The definitions below are a shallow embedding of `src/lib/device_analyzer.py`
(class `NetworkTopologyAnalyzer`) and `src/lib/network_visualizer.py`
(class `NetworkVisualizer`).  Python strings are Lean `String`s, Python
ints are `Nat`/`Int`, Python floats are modelled as `ℚ` (all float
computations appearing in the proved statements are exact), Python dicts
are insertion-ordered association lists, and a raised exception is `none`
of an `Option`.  Helper functions named `py...` model the corresponding
Python built-ins (restricted to ASCII input, which covers every string
the analyzer manipulates).
-/

namespace NetConf

/-- Model of Python `str.isdigit` on an ASCII character list. -/
def isDigitChar (c : Char) : Bool := 48 ≤ c.toNat && c.toNat ≤ 57

/-- Model of Python `str(n)` for a non-negative int: little-endian digit
accumulation with enough fuel, then reversed.  Structural in the fuel so
that concrete values reduce in the kernel. -/
def natDigitsAux : ℕ → ℕ → List Char
  | 0, _ => []
  | fuel + 1, n =>
    if n < 10 then [Char.ofNat (48 + n)]
    else Char.ofNat (48 + n % 10) :: natDigitsAux fuel (n / 10)

/-- Decimal rendering of a natural number, as Python `str` produces it. -/
def pyNatStr (n : ℕ) : String := ⟨(natDigitsAux (n + 1) n).reverse⟩

/-- Numeric value of a little-endian ASCII digit list (units digit first). -/
def valOfRevDigits : List Char → ℕ
  | [] => 0
  | c :: cs => (c.toNat - 48) + 10 * valOfRevDigits cs

/-- Model of Python `int(s)` for a string of ASCII digits (big-endian). -/
def natOfDigits (l : List Char) : ℕ := l.foldl (fun a c => a * 10 + (c.toNat - 48)) 0

/-- Characters Python `str.strip` removes by default. -/
def isPySpace (c : Char) : Bool :=
  c = ' ' || c = '\t' || c = '\n' || c = '\x0d' || c = '\x0b' || c = '\x0c'

/-- Model of Python `str.strip()` (ASCII whitespace). -/
def pyStrip (s : String) : String :=
  ⟨((s.data.dropWhile isPySpace).reverse.dropWhile isPySpace).reverse⟩

/-- Model of Python `s.isdigit()` for ASCII strings: non-empty and all digits. -/
def pyIsdigit (s : String) : Bool := !s.data.isEmpty && s.data.all isDigitChar

/-- Model of Python `s.startswith(p)`. -/
def pyStartsWith (s p : String) : Bool := p.data.isPrefixOf s.data

/-- Model of Python `s.startswith((p1, ..., pn))`. -/
def pyStartsWithAny (s : String) (ps : List String) : Bool :=
  ps.any (fun p => pyStartsWith s p)

/-- ASCII lower-casing of one character, as Python `str.lower` acts on ASCII. -/
def pyLowerChar (c : Char) : Char :=
  if 65 ≤ c.toNat ∧ c.toNat ≤ 90 then Char.ofNat (c.toNat + 32) else c

/-- Model of Python `str.lower()` (ASCII). -/
def pyLower (s : String) : String := ⟨s.data.map pyLowerChar⟩

/-- Lexicographic strict comparison of two character lists by code point,
the order Python uses for `str` comparison. -/
def charListLt : List Char → List Char → Bool
  | [], [] => false
  | [], _ :: _ => true
  | _ :: _, [] => false
  | a :: as, b :: bs =>
    if a.toNat < b.toNat then true
    else if b.toNat < a.toNat then false
    else charListLt as bs

/-- Model of Python `s1 < s2` for strings. -/
def pyStrLt (s t : String) : Bool := charListLt s.data t.data

/-- Model of Python `s1 <= s2` for strings. -/
def pyStrLe (s t : String) : Bool := pyStrLt s t || s = t

/-- Model of Python `min(a, b)` on strings (returns `a` on ties). -/
def pyMin (a b : String) : String := if pyStrLt b a then b else a

/-- Model of Python `max(a, b)` on strings (returns `a` on ties). -/
def pyMax (a b : String) : String := if pyStrLt a b then b else a

/-- Model of Python `str.split('.')`: splits at every dot, keeping empty
pieces, so the result is always non-empty. -/
def splitDots : List Char → List (List Char)
  | [] => [[]]
  | c :: cs =>
    let r := splitDots cs
    if c = '.' then [] :: r else (c :: r.headI) :: r.tail

/-- Parse one dotted-quad octet the way `ipaddress` does: 1–3 ASCII digits,
no leading zero (unless the octet is exactly "0"), value at most 255. -/
def parseOctet (g : List Char) : Option ℕ :=
  if g.isEmpty then none
  else if ¬ g.all isDigitChar then none
  else if g.length > 3 then none
  else if g.length > 1 ∧ g.headI = '0' then none
  else
    let v := natOfDigits g
    if v ≤ 255 then some v else none

/-- Model of `ipaddress.IPv4Address` string parsing: exactly four valid
octets, combined big-endian into one integer below `2^32`. -/
def parseIPv4 (s : String) : Option ℕ :=
  match splitDots s.data with
  | [g1, g2, g3, g4] =>
    match parseOctet g1, parseOctet g2, parseOctet g3, parseOctet g4 with
    | some a, some b, some c, some d =>
      some (a * 2 ^ 24 + b * 2 ^ 16 + c * 2 ^ 8 + d)
    | _, _, _, _ => none
  | _ => none

/-- Netmask integer for a prefix length `p ≤ 32`: the high `p` bits set. -/
def maskOf (p : ℕ) : ℕ := 2 ^ 32 - 2 ^ (32 - p)

/-- Network address of `a` under prefix `p`: the low `32 - p` bits cleared,
which is what masking with `maskOf p` does for `a < 2^32`. -/
def netOf (a p : ℕ) : ℕ := a / 2 ^ (32 - p) * 2 ^ (32 - p)

/-- Dotted-quad rendering of an address integer, as `str(IPv4Address)`. -/
def renderIP (a : ℕ) : String :=
  pyNatStr (a / 2 ^ 24 % 256) ++ "." ++ pyNatStr (a / 2 ^ 16 % 256) ++ "." ++
    pyNatStr (a / 2 ^ 8 % 256) ++ "." ++ pyNatStr (a % 256)

/-- CIDR rendering `str(IPv4Network)`: network address, slash, prefix length. -/
def renderCIDR (net p : ℕ) : String := renderIP net ++ "/" ++ pyNatStr p

/-- Model of `ipaddress._prefix_from_ip_int` composed with the hostmask
fallback of `_prefix_from_ip_string`: recognise `v` as a netmask (leading
ones) and otherwise try its complement. -/
def prefixLenFromMaskInt (v : ℕ) : Option ℕ :=
  (List.range 33).find? (fun p => v = maskOf p)

/-- Model of `ipaddress`'s netmask argument handling for a string: first a
prefix-length literal (ASCII digits, value 0–32), then a dotted netmask,
then a dotted hostmask. -/
def makeNetmask (m : String) : Option ℕ :=
  if pyIsdigit m then
    let v := natOfDigits m.data
    if v ≤ 32 then some v
    else (parseIPv4 m).bind (fun w =>
      match prefixLenFromMaskInt w with
      | some p => some p
      | none => prefixLenFromMaskInt (w ^^^ (2 ^ 32 - 1)))
  else
    (parseIPv4 m).bind (fun w =>
      match prefixLenFromMaskInt w with
      | some p => some p
      | none => prefixLenFromMaskInt (w ^^^ (2 ^ 32 - 1)))

/-- Model of `ipaddress.IPv4Network(f"{ip}/{p}", strict=False)` for an int
prefix `p`: `none` models the raised `ValueError`.  A slash inside `ip`
makes the composed string split into more than two parts and fail. -/
def ipv4NetworkOf (ip : String) (p : ℕ) : Option ℕ :=
  if ip.data.contains '/' then none
  else if p ≤ 32 then (parseIPv4 ip).map (fun a => netOf a p)
  else none

/-! ### Insertion-ordered dictionaries

Python dicts preserve insertion order of keys; these association-list
operations model the dict idioms the analyzer uses (`d[k] = v`,
`d.setdefault(k, []).append(v)`, membership, lookup). -/

/-- Keys of an association list, in order. -/
def keysOf {κ β : Type} (d : List (κ × β)) : List κ := d.map Prod.fst

/-- Model of `d[k] = v`: overwrite the value at an existing key (keeping
its position) or append a new key at the end. -/
def dictSet {κ β : Type} [DecidableEq κ] : List (κ × β) → κ → β → List (κ × β)
  | [], k, v => [(k, v)]
  | (k', v') :: rest, k, v =>
    if k' = k then (k', v) :: rest else (k', v') :: dictSet rest k v

/-- Model of `d.setdefault(k, []).append(a)`. -/
def dictAppend {κ α : Type} [DecidableEq κ] :
    List (κ × List α) → κ → α → List (κ × List α)
  | [], k, a => [(k, [a])]
  | (k', v) :: rest, k, a =>
    if k' = k then (k', v ++ [a]) :: rest else (k', v) :: dictAppend rest k a

/-- Lookup in a list-valued dict, `[]` when the key is absent. -/
def lookupList {κ α : Type} [DecidableEq κ] : List (κ × List α) → κ → List α
  | [], _ => []
  | (k', v) :: rest, k => if k' = k then v else lookupList rest k

/-- Lookup with a default value, modelling `d.get(k, dflt)`. -/
def lookupD {κ β : Type} [DecidableEq κ] : List (κ × β) → κ → β → β
  | [], _, dflt => dflt
  | (k', v) :: rest, k, dflt => if k' = k then v else lookupD rest k dflt

/-- Group a list of key/value pairs into an insertion-ordered list-valued
dict, exactly as a loop of `setdefault(k, []).append(v)` builds one. -/
def groupPairs {κ α : Type} [DecidableEq κ] (l : List (κ × α)) : List (κ × List α) :=
  l.foldl (fun d p => dictAppend d p.1 p.2) []

/-- Unordered index pairs of a list in Python's nested-loop order
(`for i: for j in range(i+1, n)`). -/
def upairs {α : Type} : List α → List (α × α)
  | [] => []
  | x :: xs => xs.map (fun y => (x, y)) ++ upairs xs

/-! ### `NetworkTopologyAnalyzer`: input records and interface extraction -/

/-- One entry of a device's `all_ip_interfaces` list. -/
structure RawIntf where
  interface : String
  ip : String
  mask : String
  description : String
deriving DecidableEq

/-- The `management_info` dict of a device (`none` models a missing key,
so that `mgmt_info.get(...)` truthiness tests translate directly). -/
structure MgmtInfo where
  mgmtInterface : Option String
  mgmtIp : Option String
  mgmtMask : Option String
deriving DecidableEq

/-- One analyzed device record, with the fields the topology analyzer
reads (`device_name`, `vendor`, `device_type`, `all_ip_interfaces`,
`management_info`). -/
structure Device where
  device_name : String
  vendor : String
  device_type : String
  all_ip_interfaces : List RawIntf
  management_info : MgmtInfo
deriving DecidableEq

/-- The interface descriptor dict built by `extract_device_interfaces`
(`prefix` is named `prefixLen` here). -/
structure IntfData where
  interface : String
  base_interface : String
  subif_numbers : List ℕ
  ip : String
  prefixLen : ℕ
  network_cidr : String
  description : String
  is_physical : Bool
  is_mgmt : Bool
  is_loopback : Bool
  is_p2p : Bool
  source : String
deriving DecidableEq

/-- Model of `NetworkTopologyAnalyzer.netmask_to_prefix`: a stripped
all-digits argument is returned as its integer value; otherwise the
argument is handed to `IPv4Network(f"0.0.0.0/{netmask}")` and the
resulting prefix length returned; `none` models the raised `ValueError`. -/
def netmaskToPrefixLen (netmask : String) : Option ℕ :=
  if pyIsdigit (pyStrip netmask) then some (natOfDigits (pyStrip netmask).data)
  else if netmask.data.contains '/' then none
  else makeNetmask netmask

/-- Model of `NetworkTopologyAnalyzer.is_physical_interface`: a deny-list
of non-physical name markers. -/
def is_physical_interface (name : String) : Bool :=
  ¬ pyStartsWithAny name ["MEth", "Vbdif", "Vlanif", "LoopBack", "NULL"]

/-- Model of `NetworkTopologyAnalyzer.is_mgmt_interface`. -/
def is_mgmt_interface (name : String) (isMgmtNetwork : Bool) : Bool :=
  pyStartsWithAny name ["MEth", "Vbdif1360837"] ||
    (isMgmtNetwork && pyStartsWith name "Vbdif")

/-- Model of `NetworkTopologyAnalyzer.extract_interface_number`, i.e. of
matching `^([^\d]*[\d/]+)(?:\.(\d+))?$` against the name.  The regex
backtracking collapses to: take the maximal non-digit run, then the
maximal digit-or-slash run; a match changes the output only when that run
is followed by a dot and trailing digits, every other case (including
regex failure) returns the whole name with no sub-interface numbers. -/
def extract_interface_number (name : String) : String × List ℕ :=
  let cs := name.data
  let a := (cs.takeWhile (fun c => ¬ isDigitChar c)).length
  let run := ((cs.drop a).takeWhile (fun c => isDigitChar c || c = '/')).length
  let p := a + run
  if run = 0 then (name, [])
  else if p = cs.length then (name, [])
  else
    let rest := cs.drop (p + 1)
    if cs.getD p ' ' = '.' ∧ ¬ rest.isEmpty ∧ rest.all isDigitChar then
      (⟨cs.take p⟩, [natOfDigits rest])
    else (name, [])

/-- The prefix length computed for one raw interface entry: an
all-digits mask is taken literally, anything else goes through the
netmask conversion with fallback 32 on error. -/
def rawPfx (e : RawIntf) : ℕ :=
  if pyIsdigit e.mask then natOfDigits e.mask.data
  else (netmaskToPrefixLen e.mask).getD 32

/-- The `network_cidr` computed for one raw interface entry: the
canonical network on success, the raw `f"{ip}/{prefix}"` string when
`IPv4Network` raises. -/
def rawCidr (e : RawIntf) : String :=
  match ipv4NetworkOf e.ip (rawPfx e) with
  | some net => renderCIDR net (rawPfx e)
  | none => e.ip ++ "/" ++ pyNatStr (rawPfx e)

/-- The full descriptor built for one raw interface entry. -/
def rawIntfData (e : RawIntf) : IntfData :=
  { interface := e.interface
    base_interface := (extract_interface_number e.interface).1
    subif_numbers := (extract_interface_number e.interface).2
    ip := e.ip
    prefixLen := rawPfx e
    network_cidr := rawCidr e
    description := e.description
    is_physical := is_physical_interface e.interface
    is_mgmt := is_mgmt_interface e.interface
      (decide (rawPfx e = 24 ∨ rawPfx e = 23 ∨ rawPfx e = 22))
    is_loopback := pyStartsWith (pyLower e.interface) "lo"
    is_p2p := decide (rawPfx e = 31 ∨ rawPfx e = 30)
    source := "all_ip" }

/-- The role filter applied to a descriptor
(`physical` / `mgmt` / `logical`; anything else keeps everything). -/
def keepFilter (filterType : String) (d : IntfData) : Bool :=
  if filterType = "physical" then d.is_physical && d.is_p2p && !d.is_loopback
  else if filterType = "mgmt" then d.is_mgmt && !d.is_loopback
  else if filterType = "logical" then
    !(d.is_loopback || d.is_mgmt || (d.is_physical && d.is_p2p))
  else true

/-- One step of the `all_ip_interfaces` loop of
`extract_device_interfaces`: threading the `processed_networks` set and
the accumulated descriptor list through one raw interface entry.  Note
the CIDR joins `processed_networks` even when the role filter then drops
the descriptor, exactly as in the source. -/
def extractStep (filterType : String) (st : List IntfData × List String)
    (e : RawIntf) : List IntfData × List String :=
  if e.interface = "" ∨ e.ip = "" then st
  else if rawCidr e ∈ st.2 then st
  else
    (if keepFilter filterType (rawIntfData e) then st.1 ++ [rawIntfData e] else st.1,
      st.2 ++ [rawCidr e])

/-- Model of `NetworkTopologyAnalyzer.extract_device_interfaces`: the
`all_ip_interfaces` pass with per-device `networkCIDR` deduplication and
role filtering, followed (for the `all` and `mgmt` filters) by the
`management_info` descriptor whose `network_cidr` is the raw
`f"{mgmt_ip}/{prefix}"` string. -/
def extractPart1 (device : Device) (filterType : String) : List IntfData :=
  (device.all_ip_interfaces.foldl (extractStep filterType) ([], [])).1

/-- The prefix length of the `management_info` descriptor: the mask
defaults to "24", digit masks are taken literally, conversion failures
fall back to 24. -/
def mgmtPfx (device : Device) : ℕ :=
  let mgmtMask := (device.management_info.mgmtMask).getD "24"
  if pyIsdigit mgmtMask then natOfDigits mgmtMask.data
  else (netmaskToPrefixLen mgmtMask).getD 24

/-- The descriptor appended for `management_info`: always flagged
physical and management, and its `network_cidr` is the raw
`f"{mgmt_ip}/{prefix}"` string (the source performs no network-address
canonicalization here). -/
def mgmtRecord (mgmtIntf mgmtIp : String) (pfx : ℕ) : IntfData :=
  { interface := mgmtIntf
    base_interface := mgmtIntf
    subif_numbers := []
    ip := mgmtIp
    prefixLen := pfx
    network_cidr := mgmtIp ++ "/" ++ pyNatStr pfx
    description := ""
    is_physical := true
    is_mgmt := true
    is_loopback := false
    is_p2p := false
    source := "management" }

def extract_device_interfaces (device : Device) (filterType : String) : List IntfData :=
  let part1 := extractPart1 device filterType
  if filterType = "all" ∨ filterType = "mgmt" then
    match device.management_info.mgmtInterface, device.management_info.mgmtIp with
    | some mgmtIntf, some mgmtIp =>
      if mgmtIntf = "" ∨ mgmtIp = "" then part1
      else if part1.any (fun i => i.interface = mgmtIntf ∧ i.ip = mgmtIp) then part1
      else part1 ++ [mgmtRecord mgmtIntf mgmtIp (mgmtPfx device)]
    | _, _ => part1
  else part1

/-! ### `NetworkTopologyAnalyzer`: link finding -/

/-- Device metadata value (`vendor`, `device_type`). -/
structure Meta where
  vendor : String
  device_type : String
deriving DecidableEq

/-- The `device_metadata` dict: name to vendor/type, skipping devices
named "unknown"; a repeated name overwrites the earlier value. -/
def deviceMetadata (devices : List Device) : List (String × Meta) :=
  devices.foldl (fun d dev =>
    if dev.device_name = "unknown" then d
    else dictSet d dev.device_name ⟨dev.vendor, dev.device_type⟩) []

/-- The per-device interface dict built with a given filter, skipping
devices named "unknown". -/
def deviceInterfaces (devices : List Device) (filterType : String) :
    List (String × List IntfData) :=
  devices.foldl (fun d dev =>
    if dev.device_name = "unknown" then d
    else dictSet d dev.device_name (extract_device_interfaces dev filterType)) []

/-- Flatten an interface dict into `(networkCIDR, (deviceName, intf))`
pairs in iteration order, ready for grouping by CIDR. -/
def cidrPairs (dIfs : List (String × List IntfData)) :
    List (String × (String × IntfData)) :=
  dIfs.flatMap (fun e => e.2.map (fun i => (i.network_cidr, (e.1, i))))

/-- A physical link row: the 11-field tuple
`(dev1, vendor1, type1, intf1, ip1, dev2, vendor2, type2, intf2, ip2, networkCIDR)`. -/
structure PhysLink where
  dev1 : String
  vendor1 : String
  type1 : String
  intf1 : String
  ip1 : String
  dev2 : String
  vendor2 : String
  type2 : String
  intf2 : String
  ip2 : String
  network : String
deriving DecidableEq

/-- The default metadata used when a device name is missing from
`device_metadata`. -/
def naMeta : Meta := ⟨"N/A", "N/A"⟩

/-- Physical-link row for one two-endpoint CIDR entry. -/
def mkPhysLink (meta : List (String × Meta)) (cidr : String)
    (e1 e2 : String × IntfData) : PhysLink :=
  let m1 := lookupD meta e1.1 naMeta
  let m2 := lookupD meta e2.1 naMeta
  ⟨e1.1, m1.vendor, m1.device_type, e1.2.interface, e1.2.ip,
   e2.1, m2.vendor, m2.device_type, e2.2.interface, e2.2.ip, cidr⟩

/-- One step of the link-forming loop of `find_physical_links`: a CIDR
with exactly two endpoints forms one link, dedup-keyed by the sorted
device pair plus the CIDR. -/
def physStep (meta : List (String × Meta))
    (st : List PhysLink × List (String × String × String))
    (entry : String × List (String × IntfData)) :
    List PhysLink × List (String × String × String) :=
  match entry.2 with
  | [e1, e2] =>
    let key : String × String × String :=
      (if pyStrLt e2.1 e1.1 then (e2.1, e1.1, entry.1) else (e1.1, e2.1, entry.1))
    if key ∈ st.2 then st
    else (st.1 ++ [mkPhysLink meta entry.1 e1 e2], st.2 ++ [key])
  | _ => st

/-- The `network_index` of `find_physical_links`: `physical`-filtered
interfaces of all named devices grouped by `networkCIDR`. -/
def physIndex (devices : List Device) : List (String × List (String × IntfData)) :=
  groupPairs (cidrPairs (deviceInterfaces devices "physical"))

/-- Model of `NetworkTopologyAnalyzer.find_physical_links`. -/
def find_physical_links (devices : List Device) : List PhysLink :=
  ((physIndex devices).foldl (physStep (deviceMetadata devices)) ([], [])).1

/-- A management link row:
`(device, vendor, deviceType, interface, ip, networkCIDR)`. -/
structure MgmtLink where
  device : String
  vendor : String
  device_type : String
  interface : String
  ip : String
  network : String
deriving DecidableEq

/-- Sort key comparison for management rows: Python's ascending order on
the tuple `(x[5], x[0]) = (networkCIDR, deviceName)`. -/
def mgmtKeyLe (a b : MgmtLink) : Bool :=
  pyStrLt a.network b.network || (a.network = b.network && pyStrLe a.device b.device)

/-- Model of `NetworkTopologyAnalyzer.find_mgmt_interfaces`: one row per
`mgmt`-filtered interface of each named device, sorted by
`(networkCIDR, deviceName)`. -/
def find_mgmt_interfaces (devices : List Device) : List MgmtLink :=
  let rows := devices.foldl (fun acc dev =>
    if dev.device_name = "unknown" then acc
    else acc ++ (extract_device_interfaces dev "mgmt").map (fun i =>
      ⟨dev.device_name, dev.vendor, dev.device_type, i.interface, i.ip,
        i.network_cidr⟩)) []
  rows.mergeSort mgmtKeyLe

/-- A logical link row:
`(dev1, vendor1, type1, "intf1/ip1", dev2, vendor2, type2, "intf2/ip2", description)`. -/
structure LogLink where
  dev1 : String
  vendor1 : String
  type1 : String
  ep1 : String
  dev2 : String
  vendor2 : String
  type2 : String
  ep2 : String
  descr : String
deriving DecidableEq

/-- Logical-link row for one endpoint pair and description. -/
def mkLogLink (meta : List (String × Meta)) (e1 e2 : String × IntfData)
    (descr : String) : LogLink :=
  let m1 := lookupD meta e1.1 naMeta
  let m2 := lookupD meta e2.1 naMeta
  ⟨e1.1, m1.vendor, m1.device_type, e1.2.interface ++ "/" ++ e1.2.ip,
   e2.1, m2.vendor, m2.device_type, e2.2.interface ++ "/" ++ e2.2.ip, descr⟩

/-- The `all`-filtered interface dict used by `find_logical_links`. -/
def allInterfaces (devices : List Device) : List (String × List IntfData) :=
  deviceInterfaces devices "all"

/-- Pass 1 index `network_to_devices`: Vbdif/Vlanif interfaces with
prefix length 24–28 that are not loopbacks, grouped by `networkCIDR`. -/
def serviceIndex (devices : List Device) : List (String × List (String × IntfData)) :=
  groupPairs ((allInterfaces devices).flatMap (fun e =>
    (e.2.filter (fun i =>
      pyStartsWithAny i.interface ["Vbdif", "Vlanif"] &&
        (decide (24 ≤ i.prefixLen ∧ i.prefixLen ≤ 28)) && !i.is_loopback)).map
      (fun i => (i.network_cidr, (e.1, i)))))

/-- One step of the service-network loop: a CIDR shared by at least two
endpoints and not yet processed yields every pairwise combination. -/
def serviceStep (meta : List (String × Meta))
    (st : List LogLink × List String)
    (entry : String × List (String × IntfData)) : List LogLink × List String :=
  if entry.2.length < 2 ∨ entry.1 ∈ st.2 then st
  else
    (st.1 ++ (upairs entry.2).map (fun pr =>
        mkLogLink meta pr.1 pr.2 ("Service Network: " ++ entry.1)),
      st.2 ++ [entry.1])

/-- Pass 1 of `find_logical_links` (service networks): returns the links
and the `processed_networks` set it leaves behind for pass 3. -/
def serviceNetworkPass (devices : List Device) : List LogLink × List String :=
  (serviceIndex devices).foldl (serviceStep (deviceMetadata devices)) ([], [])

/-- Pass 2 index `vni_map`: interfaces with a sub-interface number on a
`100GE`/`40GE`/`10GE` base whose number lies in the VNI range, grouped by
that number. -/
def vniMap (devices : List Device) : List (ℕ × List (String × IntfData)) :=
  groupPairs ((allInterfaces devices).flatMap (fun e =>
    (e.2.filter (fun i =>
      !i.subif_numbers.isEmpty &&
        pyStartsWithAny i.base_interface ["100GE", "40GE", "10GE"] &&
        (decide (1000 ≤ i.subif_numbers.headI ∧ i.subif_numbers.headI ≤ 16777215)))).map
      (fun i => (i.subif_numbers.headI, (e.1, i)))))

/-- The VXLAN candidate pairs in loop order: per VNI with at least two
endpoints, per `baseName` group with at least two members, every pairwise
combination, tagged with the VNI. -/
def vxlanCandidates (devices : List Device) :
    List ((String × IntfData) × (String × IntfData) × ℕ) :=
  (vniMap devices).flatMap (fun entry =>
    if entry.2.length < 2 then []
    else
      (groupPairs (entry.2.map (fun e => (e.2.base_interface, e)))).flatMap
        (fun grp =>
          if grp.2.length < 2 then []
          else (upairs grp.2).map (fun pr => (pr.1, pr.2, entry.1))))

/-- The textual description of a VXLAN overlay link for VNI `v`. -/
def vniDescr (v : ℕ) : String := "VXLAN VNI " ++ pyNatStr v ++ " (Overlay)"

/-- The dedup key of a VXLAN candidate:
`(min(dev1, dev2), max(dev1, dev2), vni)`. -/
def vniKey (c : (String × IntfData) × (String × IntfData) × ℕ) :
    String × String × ℕ :=
  (pyMin c.1.1 c.2.1.1, pyMax c.1.1 c.2.1.1, c.2.2)

/-- One step of the VXLAN loop: skip a candidate whose dedup key was
already processed, otherwise emit its link and record the key. -/
def vxlanStep (meta : List (String × Meta))
    (st : List LogLink × List (String × String × ℕ))
    (c : (String × IntfData) × (String × IntfData) × ℕ) :
    List LogLink × List (String × String × ℕ) :=
  if vniKey c ∈ st.2 then st
  else (st.1 ++ [mkLogLink meta c.1 c.2.1 (vniDescr c.2.2)], st.2 ++ [vniKey c])

/-- Pass 2 of `find_logical_links` (VXLAN overlay).  The
`processed_vni_pairs` set is used by this pass alone, so it starts empty. -/
def vxlanOverlayPass (devices : List Device) : List LogLink :=
  ((vxlanCandidates devices).foldl (vxlanStep (deviceMetadata devices)) ([], [])).1

/-- Pass 3 index `p2p30_networks`: prefix-30 non-loopback interfaces that
are not physical `100GE`/`40GE` ones, grouped by `networkCIDR`. -/
def p2p30Index (devices : List Device) : List (String × List (String × IntfData)) :=
  groupPairs ((allInterfaces devices).flatMap (fun e =>
    (e.2.filter (fun i =>
      (decide (i.prefixLen = 30)) && !i.is_loopback &&
        !(i.is_physical && pyStartsWithAny i.interface ["100GE", "40GE"]))).map
      (fun i => (i.network_cidr, (e.1, i)))))

/-- One step of the logical-P2P loop: an exactly-two-endpoint CIDR not
already processed yields one link. -/
def p2pStep (meta : List (String × Meta))
    (st : List LogLink × List String)
    (entry : String × List (String × IntfData)) : List LogLink × List String :=
  match entry.2 with
  | [e1, e2] =>
    if entry.1 ∈ st.2 then st
    else (st.1 ++ [mkLogLink meta e1 e2 ("Logical P2P: " ++ entry.1)],
      st.2 ++ [entry.1])
  | _ => st

/-- Model of `NetworkTopologyAnalyzer.find_logical_links`: the three
passes appended in order; pass 3 sees the `processed_networks` set left
by pass 1. -/
def find_logical_links (devices : List Device) : List LogLink :=
  let meta := deviceMetadata devices
  let pass1 := serviceNetworkPass devices
  let pass2 := vxlanOverlayPass devices
  let pass3 := ((p2p30Index devices).foldl (p2pStep meta) ([], pass1.2)).1
  pass1.1 ++ pass2 ++ pass3

/-! ### `NetworkVisualizer`: layout engine

Python floats are modelled as rationals.  `math.sqrt` is modelled by
`qSqrt`, which is exact on perfect-square integers — every square root
taken in the statements proved below falls in that class, so the rational
runs coincide with exact real-arithmetic runs.  `math.pi`, `math.cos` and
`math.sin` enter only through the explicit parameters `piQ`, `cosQ`,
`sinQ` of the layout functions (`qPi`, `qCos`, `qSin` below are the
rational stand-ins used for concrete runs; the placements proved about
evaluate them only at angle `0`, where they are exact). -/

/-- Bit-by-bit integer square root with 32 bits of fuel (exact for
arguments below `2 ^ 64`), kernel-reducible. -/
def isqrtAux (n : ℕ) : ℕ → ℕ → ℕ
  | 0, r => r
  | k + 1, r =>
    let r' := r + 2 ^ k
    if r' * r' ≤ n then isqrtAux n k r' else isqrtAux n k r

/-- Integer square root used by `qSqrt`. -/
def natSqrt32 (n : ℕ) : ℕ := isqrtAux n 32 0

/-- Rational stand-in for `math.sqrt`: exact on perfect-square natural
numbers, which covers every argument occurring in the proved statements. -/
def qSqrt (q : ℚ) : ℚ := (natSqrt32 q.num.toNat : ℚ)

/-- Rational stand-in for `math.pi` (used only where the surrounding
computation is insensitive to the approximation). -/
def qPi : ℚ := 355 / 113

/-- Rational stand-in for `math.cos`, exact at angle `0` — the only angle
at which the proved statements evaluate it. -/
def qCos (θ : ℚ) : ℚ := if θ = 0 then 1 else 0

/-- Rational stand-in for `math.sin`, exact at angle `0` — the only angle
at which the proved statements evaluate it. -/
def qSin (θ : ℚ) : ℚ := if θ = 0 then 0 else 1

/-- Model of Python `round` on a rational: banker's rounding to an
integer (half-to-even). -/
def pyRound (q : ℚ) : ℤ :=
  let f := ⌊q⌋
  let r := q - f
  if r < 1 / 2 then f
  else if 1 / 2 < r then f + 1
  else if f % 2 = 0 then f else f + 1

/-- A positionable object: the dict fields the layout algorithms read
(`width`, `height`, `pattern`) and write (`x`, `y`), each optional
because the source reads them through `.get` with defaults. -/
structure VisObj where
  width : Option ℚ
  height : Option ℚ
  pattern : Option ℕ
  x : Option ℚ
  y : Option ℚ
deriving DecidableEq

/-- An edge of the layout graph (`{'source': ..., 'target': ...}`). -/
structure VisLink where
  source : String
  target : String
deriving DecidableEq

/-- The `objects` dict handed to every layout strategy. -/
structure VisObjects where
  devices : List (String × VisObj)
  networks : List (String × VisObj)
  links : List VisLink
deriving DecidableEq

/-- Object with every field missing (lookup default). -/
def noObj : VisObj := ⟨none, none, none, none, none⟩

/-- Model of `obj.get('width', 50)`. -/
def objW (o : VisObj) : ℚ := o.width.getD 50

/-- Model of `obj.get('height', 50)`. -/
def objH (o : VisObj) : ℚ := o.height.getD 50

/-- Write `x`/`y` of the object stored under a key (dict item update). -/
def setObjXY (l : List (String × VisObj)) (k : String) (x y : ℚ) :
    List (String × VisObj) :=
  l.map (fun e => if e.1 = k then (e.1, { e.2 with x := some x, y := some y }) else e)

/-- Membership test `obj_id in objects['devices']`. -/
def memKeys (l : List (String × VisObj)) (k : String) : Bool := l.any (fun e => e.1 = k)

/-- The `all_objects` dict: `devices` updated with `networks` (dict
`update` semantics: a repeated key keeps its position, networks win). -/
def allObjects (objs : VisObjects) : List (String × VisObj) :=
  objs.networks.foldl (fun d e => dictSet d e.1 e.2) objs.devices

/-- Position dict of the force-directed simulation. -/
abbrev PosMap := List (String × ℚ × ℚ)

/-- Position lookup (`positions[k]`; the key is always present). -/
def getPos (ps : PosMap) (k : String) : ℚ × ℚ := lookupD ps k (0, 0)

/-- Position overwrite. -/
def setPos (ps : PosMap) (k : String) (v : ℚ × ℚ) : PosMap :=
  ps.map (fun e => if e.1 = k then (e.1, v) else e)

/-- The ordered key pairs visited by `for obj1 ...: for obj2 ...:` with
the `obj1 != obj2` guard. -/
def orderedPairs (keys : List String) : List (String × String) :=
  keys.flatMap (fun i => (keys.filter (fun j => j ≠ i)).map (fun j => (i, j)))

/-- One `(obj1, obj2)` step of `_resolve_overlaps`: on a padded
bounding-box overlap, push the two objects apart along their connecting
vector by half the separating distance each, and raise the
`overlaps_found` flag. -/
def overlapStep (all : List (String × VisObj)) (pad : ℚ)
    (st : PosMap × Bool) (pr : String × String) : PosMap × Bool :=
  let p1 := getPos st.1 pr.1
  let p2 := getPos st.1 pr.2
  let o1 := lookupD all pr.1 noObj
  let o2 := lookupD all pr.2 noObj
  let w1 := objW o1; let h1 := objH o1
  let w2 := objW o2; let h2 := objH o2
  if |p1.1 - p2.1| < w1 / 2 + w2 / 2 + pad ∧ |p1.2 - p2.2| < h1 / 2 + h2 / 2 + pad then
    let dx := p2.1 - p1.1
    let dy := p2.2 - p1.2
    let distance := max (qSqrt (dx * dx + dy * dy)) (1 / 10)
    let minDist := (qSqrt (w1 * w1 + h1 * h1) + qSqrt (w2 * w2 + h2 * h2)) / 2 + pad
    let moveX := dx / distance * (minDist / 2)
    let moveY := dy / distance * (minDist / 2)
    (setPos (setPos st.1 pr.1 (p1.1 - moveX, p1.2 - moveY))
      pr.2 (p2.1 + moveX, p2.2 + moveY), true)
  else st

/-- One full sweep over all ordered object pairs. -/
def overlapSweep (all : List (String × VisObj)) (pad : ℚ) (ps : PosMap) :
    PosMap × Bool :=
  (orderedPairs (ps.map Prod.fst)).foldl (overlapStep all pad) (ps, false)

/-- The bounded iteration of `_resolve_overlaps`: up to `n` sweeps,
stopping early after a sweep that found no overlap. -/
def resolveOverlapsGo (all : List (String × VisObj)) (pad : ℚ) :
    ℕ → PosMap → PosMap
  | 0, ps => ps
  | n + 1, ps =>
    let sw := overlapSweep all pad ps
    if sw.2 then resolveOverlapsGo all pad n sw.1 else sw.1

/-- Model of `NetworkVisualizer._resolve_overlaps` (5 sweeps). -/
def resolve_overlaps (ps : PosMap) (all : List (String × VisObj)) (pad : ℚ) :
    PosMap :=
  resolveOverlapsGo all pad 5 ps

/-- Adjacency-dict insertion for one undirected link (`graph.setdefault`
plus duplicate-free neighbor append, both directions). -/
def graphAdd (g : List (String × List String)) (s t : String) :
    List (String × List String) :=
  let g1 := if s ∈ keysOf g then g else g ++ [(s, [])]
  let g2 := if t ∈ keysOf g1 then g1 else g1 ++ [(t, [])]
  let g3 := if t ∈ lookupList g2 s then g2 else dictAppend g2 s t
  if s ∈ lookupList g3 t then g3 else dictAppend g3 t s

/-- The undirected adjacency dict built from the link list. -/
def buildGraph (links : List VisLink) : List (String × List String) :=
  links.foldl (fun g l => graphAdd g l.source l.target) []

/-- Add a vector to a displacement-dict entry. -/
def addDisp (d : PosMap) (k : String) (v : ℚ × ℚ) : PosMap :=
  d.map (fun e => if e.1 = k then (e.1, (e.2.1 + v.1, e.2.2 + v.2)) else e)

/-- Repulsion contribution pushed onto `displacement[v]` by one ordered
pair `(v, u)` of distinct nodes, size- and type-aware as in the source. -/
def repulseStep (objs : VisObjects) (all : List (String × VisObj)) (pad : ℚ)
    (ps : PosMap) (d : PosMap) (pr : String × String) : PosMap :=
  let p1 := getPos ps pr.1
  let p2 := getPos ps pr.2
  let dx := p1.1 - p2.1
  let dy := p1.2 - p2.2
  let o1 := lookupD all pr.1 noObj
  let o2 := lookupD all pr.2 noObj
  let minDistance := (qSqrt (objW o1 * objW o1 + objH o1 * objH o1) +
    qSqrt (objW o2 * objW o2 + objH o2 * objH o2)) / 2 + pad
  let distance := max (qSqrt (dx * dx + dy * dy)) (1 / 10)
  let kRep : ℚ :=
    if memKeys objs.devices pr.1 ∧ memKeys objs.devices pr.2 then 25
    else if ¬ memKeys objs.devices pr.1 ∧ ¬ memKeys objs.devices pr.2 then 20
    else 40
  let force :=
    if distance < minDistance then
      kRep * kRep / distance * (minDistance / distance) * (minDistance / distance)
    else kRep * kRep / distance
  addDisp d pr.1 (dx / distance * force, dy / distance * force)

/-- Attraction contribution of one `(node, neighbor)` adjacency pair:
quadratic in the distance, boosted for device–network edges, capped. -/
def attractStep (objs : VisObjects) (ps : PosMap) (d : PosMap)
    (pr : String × String) : PosMap :=
  if pr.1 ∈ ps.map Prod.fst ∧ pr.2 ∈ ps.map Prod.fst then
    let p1 := getPos ps pr.1
    let p2 := getPos ps pr.2
    let dx := p2.1 - p1.1
    let dy := p2.2 - p1.2
    let distance := max (qSqrt (dx * dx + dy * dy)) (1 / 10)
    let force :=
      if (memKeys objs.devices pr.1) ≠ (memKeys objs.devices pr.2) then
        distance * distance * (4 / 10) / 40 * (3 / 2)
      else distance * distance * (4 / 10) / 25
    let force := min force 35
    addDisp d pr.1 (dx / distance * force, dy / distance * force)
  else d

/-- One iteration of the force-directed main loop: repulsion over all
ordered pairs, attraction over adjacency, then a temperature-clamped
position update (temperature decreasing linearly over 40 iterations). -/
def fdIteration (objs : VisObjects) (all : List (String × VisObj)) (pad : ℚ)
    (graph : List (String × List String)) (ps : PosMap) (iter : ℕ) : PosMap :=
  let keys := ps.map Prod.fst
  let d0 : PosMap := ps.map (fun e => (e.1, (0, 0)))
  let d1 := (orderedPairs keys).foldl (repulseStep objs all pad ps) d0
  let d2 := (graph.flatMap (fun e => e.2.map (fun nb => (e.1, nb)))).foldl
    (attractStep objs ps) d1
  let temperature : ℚ := 60 * (1 - (iter : ℚ) / 40)
  ps.map (fun e =>
    let dv := lookupD d2 e.1 (0, 0)
    (e.1, (e.2.1 + max (min dv.1 temperature) (-temperature),
           e.2.2 + max (min dv.2 temperature) (-temperature))))

/-- The main (`n > 1`) branch of the force-directed layout: positions
start on a circle, 40 annealed iterations run, overlaps are resolved and
the normalized positions are written back (top-left corner convention). -/
def fdFull (piQ : ℚ) (cosQ sinQ : ℚ → ℚ) (objs : VisObjects) (padding : ℚ)
    (all : List (String × VisObj)) : VisObjects :=
    let n := all.length
    let angleStep := 2 * piQ / (n : ℚ)
    let radius : ℚ := max 50 ((n : ℚ) * 15)
    let ps0 : PosMap := all.enum.map (fun ie =>
      (ie.2.1, (radius * cosQ ((ie.1 : ℚ) * angleStep),
                radius * sinQ ((ie.1 : ℚ) * angleStep))))
    let graph := buildGraph objs.links
    let psN := (List.range 40).foldl (fdIteration objs all padding graph) ps0
    let ps := resolve_overlaps psN all padding
    match ps with
    | [] => objs
    | p0 :: rest =>
      let minX := rest.foldl (fun m e => min m e.2.1) p0.2.1
      let minY := rest.foldl (fun m e => min m e.2.2) p0.2.2
      ps.foldl (fun o e =>
        let ox := lookupD all e.1 noObj
        let x := e.2.1 - minX - objW ox / 2
        let y := e.2.2 - minY - objH ox / 2
        if memKeys o.devices e.1 then { o with devices := setObjXY o.devices e.1 x y }
        else if memKeys o.networks e.1 then
          { o with networks := setObjXY o.networks e.1 x y }
        else o) objs

/-- Model of `NetworkVisualizer.layout_algorithm_force_directed`: the
`n ≤ 1` early exit places everything at the origin; otherwise the full
simulation in `fdFull` runs. -/
def layout_algorithm_force_directed (piQ : ℚ) (cosQ sinQ : ℚ → ℚ)
    (objs : VisObjects) (padding : ℚ := 5) : VisObjects :=
  let all := allObjects objs
  if all.length ≤ 1 then
    all.foldl (fun o e =>
      if memKeys o.devices e.1 then { o with devices := setObjXY o.devices e.1 0 0 }
      else if memKeys o.networks e.1 then
        { o with networks := setObjXY o.networks e.1 0 0 }
      else o) objs
  else fdFull piQ cosQ sinQ objs padding all

/-- Largest `max(width, height)` over a group
(`max_inner_size`/`max_outer_size` computation). -/
def maxSize (g : List (String × VisObj)) : ℚ :=
  g.foldl (fun m e => max m (max (objW e.2) (objH e.2))) 0

/-- Rounded ring placement of a group at a given radius around the
origin: object `i` sits at angle `i * 2π/n`, offset by half its size
(top-left corner convention), coordinates rounded. -/
def ringPlace (piQ : ℚ) (cosQ sinQ : ℚ → ℚ) (group : List (String × VisObj))
    (radius : ℚ) (target : List (String × VisObj)) : List (String × VisObj) :=
  let step := if group.length > 0 then 2 * piQ / (group.length : ℚ) else 0
  group.enum.foldl (fun t ie =>
    let angle := (ie.1 : ℚ) * step
    let x := (pyRound (radius * cosQ angle - objW ie.2.2 / 2) : ℚ)
    let y := (pyRound (radius * sinQ angle - objH ie.2.2 / 2) : ℚ)
    setObjXY t ie.2.1 x y) target

/-- The per-pattern sub-ring placement of a network group (shared by the
inner and outer branches of the circular layout): each pattern subgroup
is placed on its own ring, the radius growing by the subgroup's maximal
height plus the circular padding.  The source's else-branch for an empty
subgroup is unreachable (subgroups are built non-empty) and is omitted. -/
def patternRings (piQ : ℚ) (cosQ sinQ : ℚ → ℚ) (circularPadding : ℚ)
    (group : List (String × VisObj))
    (patternGroups : List (ℕ × List String)) (startRadius : ℚ)
    (target : List (String × VisObj)) : List (String × VisObj) :=
  (patternGroups.foldl (fun (st : List (String × VisObj) × ℚ) pg =>
    if pg.2.length > 0 then
      let maxH := pg.2.foldl (fun m k => max m (objH (lookupD group k noObj))) 0
      let step := 2 * piQ / (pg.2.length : ℚ)
      let placed := pg.2.enum.foldl (fun t jk =>
        let angle := (jk.1 : ℚ) * step
        let o := lookupD group jk.2 noObj
        let x := (pyRound (st.2 * cosQ angle - objW o / 2) : ℚ)
        let y := (pyRound (st.2 * sinQ angle - objH o / 2) : ℚ)
        setObjXY t jk.2 x y) st.1
      (placed, st.2 + maxH + circularPadding)
    else st) (target, startRadius)).1

/-- Pattern groups of a network group: pattern value (default 0) to the
ids carrying it, in insertion order. -/
def patternGroupsOf (g : List (String × VisObj)) : List (ℕ × List String) :=
  groupPairs (g.map (fun e => (e.2.pattern.getD 0, e.1)))

/-- Model of `NetworkVisualizer.layout_algorithm_circular`: the smaller
of devices/networks forms the inner ring, the larger the outer ring;
networks are split into per-pattern concentric sub-rings; ring radii come
from the count-based circumference bound and the clearance bound. -/
def layout_algorithm_circular (piQ : ℚ) (cosQ sinQ : ℚ → ℚ)
    (objs : VisObjects) (padding : ℚ := 20) (circularPadding : ℚ := 250) :
    VisObjects :=
  let devices := objs.devices
  let networks := objs.networks
  let devicesInner := devices.length ≤ networks.length
  let inner := if devicesInner then devices else networks
  let outer := if devicesInner then networks else devices
  let maxInner := maxSize inner
  let maxOuter := maxSize outer
  let maxObj := max maxInner maxOuter
  let nInner := inner.length
  let nOuter := outer.length
  let innerRadius : ℚ :=
    if nInner > 0 then
      max ((nInner : ℚ) * (maxInner + padding) / (2 * piQ)) (maxInner + padding)
    else 0
  let outerRadius : ℚ :=
    if nOuter > 0 then
      max ((nOuter : ℚ) * (maxOuter + padding) / (2 * piQ))
        (innerRadius + max maxInner maxOuter + circularPadding)
    else innerRadius + maxObj + circularPadding
  let objs1 :=
    if nInner > 0 then
      if ¬ devicesInner then
        let pgs := patternGroupsOf inner
        if pgs.length > 1 then
          let placed := patternRings piQ cosQ sinQ circularPadding inner pgs
            circularPadding objs.networks
          { objs with networks := placed }
        else
          let placed := ringPlace piQ cosQ sinQ inner innerRadius objs.networks
          { objs with networks := placed }
      else
        let placed := ringPlace piQ cosQ sinQ inner innerRadius objs.devices
        { objs with devices := placed }
    else objs
  if nOuter > 0 then
    if devicesInner then
      let pgs := patternGroupsOf outer
      if pgs.length > 1 then
        let heights := pgs.map (fun pg =>
          pg.2.foldl (fun m k => max m (objH (lookupD outer k noObj))) 0)
        let start0 := outerRadius -
          (heights.sum + ((pgs.length : ℚ) - 1) * circularPadding)
        let start := if start0 < 0 then circularPadding else start0
        let placed := patternRings piQ cosQ sinQ circularPadding outer pgs start
          objs1.networks
        { objs1 with networks := placed }
      else
        let placed := ringPlace piQ cosQ sinQ outer outerRadius objs1.networks
        { objs1 with networks := placed }
    else
      let placed := ringPlace piQ cosQ sinQ outer outerRadius objs1.devices
      { objs1 with devices := placed }
  else objs1

/-- Ceiling integer square root, modelling `math.ceil(math.sqrt(n))` for
the group sizes the layouts handle. -/
def ceilSqrt (n : ℕ) : ℕ :=
  if natSqrt32 n * natSqrt32 n = n then natSqrt32 n else natSqrt32 n + 1

/-- Relative grid coordinates of a group's objects: left-to-right rows of
`cols` objects, horizontal step `width + padding`, vertical step
`max_row_height + padding`. -/
def gridRelPositions (padding : ℚ) (cols : ℕ) (g : List (String × VisObj)) :
    List (String × ℚ × ℚ) :=
  (g.foldl (fun (st : List (String × ℚ × ℚ) × ℚ × ℚ × ℚ × ℕ) e =>
    let rel := st.1 ++ [(e.1, st.2.1, st.2.2.1)]
    let maxRowH := max st.2.2.2.1 (objH e.2)
    let curX := st.2.1 + objW e.2 + padding
    let i := st.2.2.2.2
    if (i + 1) % cols = 0 then (rel, 0, st.2.2.1 + maxRowH + padding, 0, i + 1)
    else (rel, curX, st.2.2.1, maxRowH, i + 1)) ([], 0, 0, 0, 0)).1

/-- Padded bounding box of a laid-out group: maximal relative coordinates
plus the last object's size, plus padding on the perimeter. -/
def gridGroupBounds (padding : ℚ) (g : List (String × VisObj))
    (rel : List (String × ℚ × ℚ)) : ℚ × ℚ :=
  let maxX := (rel.map (fun e => e.2.1)).foldl max 0
  let maxY := (rel.map (fun e => e.2.2)).foldl max 0
  let lastW := objW (g.getLastD ("", noObj)).2
  let lastH := objH (g.getLastD ("", noObj)).2
  (maxX + lastW + 2 * padding, maxY + lastH + 2 * padding)

/-- Macro positions of the group blocks on the second-level grid. -/
def gridMacroPositions (groupPadding : ℚ) (cols : ℕ)
    (bounds : List (String × ℚ × ℚ)) : List (String × ℚ × ℚ) :=
  (bounds.foldl (fun (st : List (String × ℚ × ℚ) × ℚ × ℚ × ℚ × ℕ) b =>
    let pos := st.1 ++ [(b.1, st.2.1, st.2.2.1)]
    let maxRowH := max st.2.2.2.1 b.2.2
    let curX := st.2.1 + b.2.1 + groupPadding
    let i := st.2.2.2.2
    if (i + 1) % cols = 0 then (pos, 0, st.2.2.1 + maxRowH + groupPadding, 0, i + 1)
    else (pos, curX, st.2.2.1, maxRowH, i + 1)) ([], 0, 0, 0, 0)).1

/-- Model of `NetworkVisualizer.layout_algorithm_grid`: networks are
bucketed by pattern, each non-empty bucket (and the devices) laid out on
its own square-ish grid, the buckets packed on a second-level grid, every
coordinate finally rounded. -/
def layout_algorithm_grid (objs : VisObjects) (padding : ℚ := 50)
    (groupPadding : ℚ := 30) : VisObjects :=
  let networkGroups := groupPairs (objs.networks.map (fun e => (e.2.pattern.getD 0, e)))
  let allGroups : List (String × List (String × VisObj)) :=
    ("devices", objs.devices) ::
      networkGroups.map (fun pg => ("network_" ++ pyNatStr pg.1, pg.2))
  let laid := allGroups.filterMap (fun grp =>
    if grp.2.isEmpty then none
    else
      let cols := ceilSqrt grp.2.length
      let rel := gridRelPositions padding cols grp.2
      some (grp.1, grp.2, rel, gridGroupBounds padding grp.2 rel))
  if laid.isEmpty then objs
  else
    let groupCols := ceilSqrt laid.length
    let macroPos := gridMacroPositions groupPadding groupCols
      (laid.map (fun l => (l.1, l.2.2.2)))
    let objs1 := laid.foldl (fun o l =>
      let mp := lookupD macroPos l.1 (0, 0)
      l.2.2.1.foldl (fun o r =>
        let x := mp.1 + r.2.1 + padding
        let y := mp.2 + r.2.2 + padding
        if memKeys o.devices r.1 then { o with devices := setObjXY o.devices r.1 x y }
        else if memKeys o.networks r.1 then
          { o with networks := setObjXY o.networks r.1 x y }
        else o) o) objs
    { objs1 with
      devices := objs1.devices.map (fun e =>
        (e.1, { e.2 with x := e.2.x.map (fun v => (pyRound v : ℚ)),
                         y := e.2.y.map (fun v => (pyRound v : ℚ)) }))
      networks := objs1.networks.map (fun e =>
        (e.1, { e.2 with x := e.2.x.map (fun v => (pyRound v : ℚ)),
                         y := e.2.y.map (fun v => (pyRound v : ℚ)) })) }

/-- Breadth-first collection of one connected component: pops the queue
front, appends unvisited in-scope neighbors.  The fuel (total object
count) dominates the number of pops, since every enqueue marks its node
visited first. -/
def bfsGo (graph : List (String × List String)) (allKeys : List String) :
    ℕ → List String → List String → List String × List String
  | 0, _, visited => ([], visited)
  | _ + 1, [], visited => ([], visited)
  | fuel + 1, cur :: rest, visited =>
    let st := (lookupList graph cur).foldl
      (fun (st : List String × List String) nb =>
        if nb ∉ st.2 ∧ nb ∈ allKeys then (st.1 ++ [nb], st.2 ++ [nb]) else st)
      (rest, visited)
    let out := bfsGo graph allKeys fuel st.1 st.2
    (cur :: out.1, out.2)

/-- The connected components (clusters) of the link graph, in first-seen
order. -/
def clustersOf (graph : List (String × List String))
    (allKeys : List String) : List (List String) :=
  (allKeys.foldl (fun (st : List (List String) × List String) k =>
    if k ∈ st.2 then st
    else
      let out := bfsGo graph allKeys allKeys.length [k] (st.2 ++ [k])
      (st.1 ++ [out.1], out.2)) ([], [])).1

/-- The non-empty branch of the clustered layout: singleton components
sit on the baseline at the running x-offset, larger components are laid
out on their own sub-grid; the offset advances past each cluster. -/
def clusteredMain (objs : VisObjects) (padding : ℚ)
    (all : List (String × VisObj)) : VisObjects :=
    let graph := buildGraph objs.links
    let clusters := clustersOf graph (all.map Prod.fst)
    (clusters.foldl (fun (st : VisObjects × ℚ) cluster =>
      match cluster with
      | [k] =>
        let o := lookupD all k noObj
        let o1 :=
          if memKeys st.1.devices k then
            { st.1 with devices := setObjXY st.1.devices k st.2 0 }
          else if memKeys st.1.networks k then
            { st.1 with networks := setObjXY st.1.networks k st.2 0 }
          else st.1
        (o1, st.2 + max (objW o) (objH o) + padding)
      | _ =>
        let cols := ceilSqrt cluster.length
        let o1 := (cluster.enum.foldl (fun o ik =>
          let obj := lookupD all ik.2 noObj
          let x := st.2 + ((ik.1 % cols : ℕ) : ℚ) * (objW obj + padding)
          let y := ((ik.1 / cols : ℕ) : ℚ) * (objH obj + padding)
          if memKeys o.devices ik.2 then { o with devices := setObjXY o.devices ik.2 x y }
          else if memKeys o.networks ik.2 then
            { o with networks := setObjXY o.networks ik.2 x y }
          else o) st.1)
        let maxW := (cluster.map (fun k => objW (lookupD all k noObj))).foldl max 0
        (o1, st.2 + (cols : ℚ) * (maxW + padding))) (objs, 0)).1

/-- Model of `NetworkVisualizer.layout_algorithm_clustered`: empty input
is returned unchanged, otherwise the cluster placement in
`clusteredMain` runs. -/
def layout_algorithm_clustered (objs : VisObjects) (padding : ℚ := 50) :
    VisObjects :=
  let all := allObjects objs
  if all.length = 0 then objs
  else clusteredMain objs padding all

/-! ### Generic lemmas about the dictionary model -/

theorem lookupList_dictAppend {κ α : Type} [DecidableEq κ]
    (d : List (κ × List α)) (k : κ) (a : α) (k' : κ) :
    lookupList (dictAppend d k a) k' =
      if k' = k then lookupList d k ++ [a] else lookupList d k' := by
  induction d with
  | nil =>
    simp only [dictAppend, lookupList]
    by_cases h : k' = k
    · subst h; simp
    · rw [if_neg (fun hh => h hh.symm), if_neg h]
  | cons e rest ih =>
    obtain ⟨k1, v⟩ := e
    by_cases h1 : k1 = k
    · subst h1
      simp only [dictAppend, if_pos rfl, lookupList]
      by_cases h2 : k1 = k'
      · subst h2; simp
      · rw [if_neg h2, if_neg (fun hh : k' = k1 => h2 hh.symm), if_neg h2]
    · simp only [dictAppend, if_neg h1, lookupList]
      by_cases h2 : k1 = k'
      · subst h2
        simp [h1]
      · rw [if_neg h2, if_neg h2, ih]

theorem mem_keysOf_dictAppend {κ α : Type} [DecidableEq κ]
    (d : List (κ × List α)) (k : κ) (a : α) (k' : κ) :
    k' ∈ keysOf (dictAppend d k a) ↔ k' ∈ keysOf d ∨ k' = k := by
  induction d with
  | nil => simp [dictAppend, keysOf]
  | cons e rest ih =>
    obtain ⟨k1, v⟩ := e
    by_cases h1 : k1 = k
    · subst h1
      simp [dictAppend, keysOf]
      intro h; exact Or.inl h
    · simp only [dictAppend, if_neg h1, keysOf, List.map_cons, List.mem_cons] at ih ⊢
      rw [ih]
      tauto

theorem nodup_keysOf_dictAppend {κ α : Type} [DecidableEq κ]
    (d : List (κ × List α)) (k : κ) (a : α) (h : (keysOf d).Nodup) :
    (keysOf (dictAppend d k a)).Nodup := by
  induction d with
  | nil => simp [dictAppend, keysOf]
  | cons e rest ih =>
    obtain ⟨k1, v⟩ := e
    simp only [keysOf, List.map_cons, List.nodup_cons] at h
    by_cases h1 : k1 = k
    · subst h1
      simpa [dictAppend, keysOf] using h
    · simp only [dictAppend, if_neg h1, keysOf, List.map_cons, List.nodup_cons]
      refine ⟨?_, ih h.2⟩
      intro hmem
      rcases (mem_keysOf_dictAppend rest k a k1).1 hmem with h' | h'
      · exact h.1 h'
      · exact h1 h'

theorem foldl_dictAppend_lookupList {κ α : Type} [DecidableEq κ]
    (l : List (κ × α)) :
    ∀ (d : List (κ × List α)) (k : κ),
      lookupList (l.foldl (fun d p => dictAppend d p.1 p.2) d) k =
        lookupList d k ++ (l.filter (fun p => p.1 = k)).map Prod.snd := by
  induction l with
  | nil => intro d k; simp
  | cons p rest ih =>
    intro d k
    by_cases h : p.1 = k
    · subst h
      simp only [List.foldl_cons, ih, lookupList_dictAppend, List.filter_cons]
      simp
    · simp only [List.foldl_cons, ih, lookupList_dictAppend, List.filter_cons]
      simp [h]
      intro hh
      exact absurd hh.symm h

theorem groupPairs_lookupList {κ α : Type} [DecidableEq κ]
    (l : List (κ × α)) (k : κ) :
    lookupList (groupPairs l) k = (l.filter (fun p => p.1 = k)).map Prod.snd := by
  simpa [lookupList] using foldl_dictAppend_lookupList l [] k

theorem foldl_dictAppend_nodupKeys {κ α : Type} [DecidableEq κ]
    (l : List (κ × α)) :
    ∀ (d : List (κ × List α)), (keysOf d).Nodup →
      (keysOf (l.foldl (fun d p => dictAppend d p.1 p.2) d)).Nodup := by
  induction l with
  | nil => intro d h; simpa using h
  | cons p rest ih =>
    intro d h
    exact ih _ (nodup_keysOf_dictAppend d p.1 p.2 h)

theorem groupPairs_nodupKeys {κ α : Type} [DecidableEq κ] (l : List (κ × α)) :
    (keysOf (groupPairs l)).Nodup :=
  foldl_dictAppend_nodupKeys l [] (by simp [keysOf])

theorem lookupList_eq_of_mem_nodup {κ α : Type} [DecidableEq κ]
    {d : List (κ × List α)} {k : κ} {v : List α}
    (hd : (keysOf d).Nodup) (hm : (k, v) ∈ d) : lookupList d k = v := by
  induction d with
  | nil => simp at hm
  | cons e rest ih =>
    simp only [keysOf, List.map_cons, List.nodup_cons] at hd
    rcases List.mem_cons.1 hm with h | h
    · subst h; simp [lookupList]
    · have hk : ¬ e.1 = k := by
        intro he
        exact hd.1 (he ▸ (List.mem_map.2 ⟨(k, v), h, rfl⟩))
      obtain ⟨k1, v1⟩ := e
      simp only [lookupList, if_neg hk]
      exact ih hd.2 h

theorem mem_keysOf_of_mem {κ α : Type} {d : List (κ × α)} {e : κ × α}
    (h : e ∈ d) : e.1 ∈ keysOf d :=
  List.mem_map.2 ⟨e, h, rfl⟩

theorem lookupList_eq_nil_of_not_mem {κ α : Type} [DecidableEq κ]
    {d : List (κ × List α)} {k : κ} (h : k ∉ keysOf d) : lookupList d k = [] := by
  induction d with
  | nil => rfl
  | cons e rest ih =>
    simp only [keysOf, List.map_cons, List.mem_cons] at h
    push_neg at h
    obtain ⟨k1, v1⟩ := e
    simp only [lookupList, if_neg (fun hh : k1 = k => h.1 hh.symm)]
    exact ih (by simpa [keysOf] using h.2)

/-! ### Physical links: the exactly-two rule and device distinctness -/

/-- The link (if any) one index entry contributes to
`find_physical_links`: exactly two endpoints make one link. -/
def physEmit (meta : List (String × Meta))
    (entry : String × List (String × IntfData)) : Option PhysLink :=
  match entry.2 with
  | [e1, e2] => some (mkPhysLink meta entry.1 e1 e2)
  | _ => none

theorem physStep_key_third (e1 e2 : String × IntfData) (c : String) :
    ((if pyStrLt e2.1 e1.1 then (e2.1, e1.1, c) else (e1.1, e2.1, c)) :
      String × String × String).2.2 = c := by
  split <;> rfl

theorem physFold_eq_filterMap (meta : List (String × Meta))
    (es : List (String × List (String × IntfData))) :
    ∀ (ls : List PhysLink) (ps : List (String × String × String)),
      (∀ t ∈ ps, t.2.2 ∉ es.map Prod.fst) → (es.map Prod.fst).Nodup →
      (es.foldl (physStep meta) (ls, ps)).1 = ls ++ es.filterMap (physEmit meta) := by
  induction es with
  | nil => intro ls ps _ _; simp
  | cons entry rest ih =>
    intro ls ps hps hnd
    obtain ⟨c, eps⟩ := entry
    simp only [List.map_cons, List.nodup_cons] at hnd
    match eps with
    | [] =>
      rw [List.foldl_cons]
      have hstep : physStep meta (ls, ps) (c, []) = (ls, ps) := rfl
      rw [hstep, ih ls ps (fun t ht => fun hm => hps t ht (List.mem_cons_of_mem _ hm))
        hnd.2]
      rfl
    | [e1] =>
      rw [List.foldl_cons]
      have hstep : physStep meta (ls, ps) (c, [e1]) = (ls, ps) := rfl
      rw [hstep, ih ls ps (fun t ht => fun hm => hps t ht (List.mem_cons_of_mem _ hm))
        hnd.2]
      rfl
    | e1 :: e2 :: e3 :: tl =>
      rw [List.foldl_cons]
      have hstep : physStep meta (ls, ps) (c, e1 :: e2 :: e3 :: tl) = (ls, ps) := rfl
      rw [hstep, ih ls ps (fun t ht => fun hm => hps t ht (List.mem_cons_of_mem _ hm))
        hnd.2]
      rfl
    | [e1, e2] =>
      rw [List.foldl_cons]
      have hkey : ((if pyStrLt e2.1 e1.1 then (e2.1, e1.1, c) else (e1.1, e2.1, c)) :
          String × String × String) ∉ ps := by
        intro hk
        exact hps _ hk (by rw [physStep_key_third]; exact List.mem_cons_self _ _)
      have hstep : physStep meta (ls, ps) (c, [e1, e2]) =
          (ls ++ [mkPhysLink meta c e1 e2],
            ps ++ [if pyStrLt e2.1 e1.1 then (e2.1, e1.1, c) else (e1.1, e2.1, c)]) := by
        simp only [physStep, if_neg hkey]
      rw [hstep]
      rw [ih _ _ ?_ hnd.2]
      · simp [physEmit]
      · intro t ht
        rcases List.mem_append.1 ht with h | h
        · exact fun hm => hps t h (List.mem_cons_of_mem _ hm)
        · have : t = (if pyStrLt e2.1 e1.1 then (e2.1, e1.1, c) else (e1.1, e2.1, c)) := by
            simpa using h
          rw [this, physStep_key_third]
          exact hnd.1

theorem find_physical_links_eq_filterMap (devices : List Device) :
    find_physical_links devices =
      (physIndex devices).filterMap (physEmit (deviceMetadata devices)) := by
  have h := physFold_eq_filterMap (deviceMetadata devices) (physIndex devices) [] []
    (by intro t ht; simp at ht) (groupPairs_nodupKeys _)
  simpa [find_physical_links] using h

theorem mkPhysLink_network (meta : List (String × Meta)) (c : String)
    (e1 e2 : String × IntfData) : (mkPhysLink meta c e1 e2).network = c := rfl

theorem filterMap_physEmit_count_zero (meta : List (String × Meta))
    (d : List (String × List (String × IntfData))) (c : String)
    (h : c ∉ d.map Prod.fst) :
    ((d.filterMap (physEmit meta)).filter (fun l => l.network = c)).length = 0 := by
  induction d with
  | nil => rfl
  | cons entry rest ih =>
    simp only [List.map_cons, List.mem_cons] at h
    push_neg at h
    obtain ⟨k, eps⟩ := entry
    have hk : ¬ k = c := fun hh => h.1 hh.symm
    match eps with
    | [] =>
      have h0 : physEmit meta (k, ([] : List (String × IntfData))) = none := rfl
      simp only [List.filterMap_cons, h0]
      exact ih h.2
    | [e1] =>
      have h0 : physEmit meta (k, [e1]) = none := rfl
      simp only [List.filterMap_cons, h0]
      exact ih h.2
    | e1 :: e2 :: e3 :: tl =>
      have h0 : physEmit meta (k, e1 :: e2 :: e3 :: tl) = none := rfl
      simp only [List.filterMap_cons, h0]
      exact ih h.2
    | [e1, e2] =>
      have h0 : physEmit meta (k, [e1, e2]) = some (mkPhysLink meta k e1 e2) := rfl
      simp only [List.filterMap_cons, h0, List.filter_cons, mkPhysLink_network]
      simpa [hk] using ih h.2

theorem filterMap_physEmit_count (meta : List (String × Meta))
    (d : List (String × List (String × IntfData))) (c : String)
    (hnd : (d.map Prod.fst).Nodup) :
    ((d.filterMap (physEmit meta)).filter (fun l => l.network = c)).length =
      if (lookupList d c).length = 2 then 1 else 0 := by
  induction d with
  | nil => simp [lookupList]
  | cons entry rest ih =>
    obtain ⟨k, eps⟩ := entry
    simp only [List.map_cons, List.nodup_cons] at hnd
    by_cases hk : k = c
    · subst hk
      have hzero := filterMap_physEmit_count_zero meta rest k hnd.1
      have hlook : lookupList ((k, eps) :: rest) k = eps := by simp [lookupList]
      rw [hlook]
      match eps with
      | [] =>
        have h0 : physEmit meta (k, ([] : List (String × IntfData))) = none := rfl
        simp only [List.filterMap_cons, h0]
        simpa using hzero
      | [e1] =>
        have h0 : physEmit meta (k, [e1]) = none := rfl
        simp only [List.filterMap_cons, h0]
        simpa using hzero
      | e1 :: e2 :: e3 :: tl =>
        have h0 : physEmit meta (k, e1 :: e2 :: e3 :: tl) = none := rfl
        simp only [List.filterMap_cons, h0]
        simpa using hzero
      | [e1, e2] =>
        have h0 : physEmit meta (k, [e1, e2]) = some (mkPhysLink meta k e1 e2) := rfl
        simp only [List.filterMap_cons, h0, List.filter_cons, mkPhysLink_network]
        simpa using hzero
    · have hlook : lookupList ((k, eps) :: rest) c = lookupList rest c := by
        simp [lookupList, hk]
      rw [hlook]
      match eps with
      | [] =>
        have h0 : physEmit meta (k, ([] : List (String × IntfData))) = none := rfl
        simp only [List.filterMap_cons, h0]
        exact ih hnd.2
      | [e1] =>
        have h0 : physEmit meta (k, [e1]) = none := rfl
        simp only [List.filterMap_cons, h0]
        exact ih hnd.2
      | e1 :: e2 :: e3 :: tl =>
        have h0 : physEmit meta (k, e1 :: e2 :: e3 :: tl) = none := rfl
        simp only [List.filterMap_cons, h0]
        exact ih hnd.2
      | [e1, e2] =>
        have h0 : physEmit meta (k, [e1, e2]) = some (mkPhysLink meta k e1 e2) := rfl
        simp only [List.filterMap_cons, h0, List.filter_cons, mkPhysLink_network]
        simpa [hk] using ih hnd.2

/-- C1: in `find_physical_links`, a CIDR of the physical index with
exactly two contributing endpoints yields exactly one Physical link
carrying that CIDR, and a CIDR with any other endpoint count (including
absent CIDRs, whose endpoint list is empty) yields none. -/
theorem physical_links_two_endpoint_rule (devices : List Device) (cidr : String) :
    ((find_physical_links devices).filter (fun l => l.network = cidr)).length =
      if (lookupList (physIndex devices) cidr).length = 2 then 1 else 0 := by
  rw [find_physical_links_eq_filterMap]
  exact filterMap_physEmit_count _ _ _ (groupPairs_nodupKeys _)

theorem mem_keysOf_dictSet {κ β : Type} [DecidableEq κ]
    (d : List (κ × β)) (k : κ) (v : β) (k' : κ) :
    k' ∈ keysOf (dictSet d k v) ↔ k' ∈ keysOf d ∨ k' = k := by
  induction d with
  | nil => simp [dictSet, keysOf]
  | cons e rest ih =>
    obtain ⟨k1, v1⟩ := e
    by_cases h1 : k1 = k
    · subst h1
      simp [dictSet, keysOf]
      intro h; exact Or.inl h
    · simp only [dictSet, if_neg h1, keysOf, List.map_cons, List.mem_cons] at ih ⊢
      rw [ih]
      tauto

theorem nodup_keysOf_dictSet {κ β : Type} [DecidableEq κ]
    (d : List (κ × β)) (k : κ) (v : β) (h : (keysOf d).Nodup) :
    (keysOf (dictSet d k v)).Nodup := by
  induction d with
  | nil => simp [dictSet, keysOf]
  | cons e rest ih =>
    obtain ⟨k1, v1⟩ := e
    simp only [keysOf, List.map_cons, List.nodup_cons] at h
    by_cases h1 : k1 = k
    · subst h1
      simpa [dictSet, keysOf] using h
    · simp only [dictSet, if_neg h1, keysOf, List.map_cons, List.nodup_cons]
      refine ⟨?_, ih h.2⟩
      intro hmem
      rcases (mem_keysOf_dictSet rest k v k1).1 hmem with h' | h'
      · exact h.1 h'
      · exact h1 h'

theorem dictSet_forall {κ β : Type} [DecidableEq κ] (P : κ × β → Prop)
    (d : List (κ × β)) (k : κ) (v : β)
    (hd : ∀ e ∈ d, P e) (hv : P (k, v)) : ∀ e ∈ dictSet d k v, P e := by
  induction d with
  | nil => simpa [dictSet] using hv
  | cons e0 rest ih =>
    obtain ⟨k1, v1⟩ := e0
    by_cases h1 : k1 = k
    · subst h1
      intro e he
      rcases List.mem_cons.1 (by simpa [dictSet] using he) with h | h
      · exact h ▸ hv
      · exact hd e (List.mem_cons_of_mem _ h)
    · intro e he
      rcases List.mem_cons.1 (by simpa [dictSet, h1] using he) with h | h
      · exact h ▸ hd _ (List.mem_cons_self _ _)
      · exact ih (fun e' he' => hd e' (List.mem_cons_of_mem _ he')) e h

theorem deviceInterfaces_nodupKeys (devices : List Device) (f : String) :
    (keysOf (deviceInterfaces devices f)).Nodup := by
  suffices h : ∀ (d : List (String × List IntfData)), (keysOf d).Nodup →
      (keysOf (devices.foldl (fun d dev =>
        if dev.device_name = "unknown" then d
        else dictSet d dev.device_name (extract_device_interfaces dev f)) d)).Nodup by
    exact h [] (by simp [keysOf])
  induction devices with
  | nil => intro d h; simpa using h
  | cons dev rest ih =>
    intro d h
    simp only [List.foldl_cons]
    by_cases hu : dev.device_name = "unknown"
    · simpa [hu] using ih d h
    · simpa [hu] using ih _ (nodup_keysOf_dictSet d _ _ h)

theorem deviceInterfaces_values (devices : List Device) (f : String) :
    ∀ e ∈ deviceInterfaces devices f,
      ∃ dev : Device, e.2 = extract_device_interfaces dev f := by
  suffices h : ∀ (d : List (String × List IntfData)),
      (∀ e ∈ d, ∃ dev : Device, e.2 = extract_device_interfaces dev f) →
      ∀ e ∈ (devices.foldl (fun d dev =>
        if dev.device_name = "unknown" then d
        else dictSet d dev.device_name (extract_device_interfaces dev f)) d),
        ∃ dev : Device, e.2 = extract_device_interfaces dev f by
    exact h [] (by simp)
  induction devices with
  | nil => intro d h; simpa using h
  | cons dev rest ih =>
    intro d h
    simp only [List.foldl_cons]
    by_cases hu : dev.device_name = "unknown"
    · simpa [hu] using ih d h
    · simp only [hu, if_neg (by simpa using hu)]
      exact ih _ (dictSet_forall _ d _ _ h ⟨dev, rfl⟩)

theorem extractStep_inv (f : String) (st : List IntfData × List String)
    (e : RawIntf)
    (h1 : (st.1.map (fun i => i.network_cidr)).Nodup)
    (h2 : ∀ i ∈ st.1, i.network_cidr ∈ st.2) :
    ((extractStep f st e).1.map (fun i => i.network_cidr)).Nodup ∧
      ∀ i ∈ (extractStep f st e).1, i.network_cidr ∈ (extractStep f st e).2 := by
  by_cases hskip : e.interface = "" ∨ e.ip = ""
  · simp only [extractStep, if_pos hskip]
    exact ⟨h1, h2⟩
  · by_cases hdup : rawCidr e ∈ st.2
    · simp only [extractStep, if_neg hskip, if_pos hdup]
      exact ⟨h1, h2⟩
    · simp only [extractStep, if_neg hskip, if_neg hdup]
      by_cases hkeep : keepFilter f (rawIntfData e)
      · simp only [if_pos hkeep]
        constructor
        · rw [List.map_append]
          refine List.Nodup.append h1 (by simp) ?_
          intro x hx hy
          simp only [List.map_cons, List.map_nil, List.mem_singleton] at hy
          subst hy
          rcases List.mem_map.1 hx with ⟨i, hi, hci⟩
          have hcc : (rawIntfData e).network_cidr = rawCidr e := rfl
          exact hdup (by rw [← hcc, ← hci]; exact h2 i hi)
        · intro i hi
          rcases List.mem_append.1 hi with h | h
          · exact List.mem_append.2 (Or.inl (h2 i h))
          · simp only [List.mem_singleton] at h
            subst h
            exact List.mem_append.2 (Or.inr (by simp [rawIntfData]))
      · simp only [if_neg hkeep]
        exact ⟨h1, fun i hi => List.mem_append.2 (Or.inl (h2 i hi))⟩

theorem extract_part1_cidr_nodup (f : String) (raw : List RawIntf) :
    ∀ (st : List IntfData × List String),
      (st.1.map (fun i => i.network_cidr)).Nodup →
      (∀ i ∈ st.1, i.network_cidr ∈ st.2) →
      ((raw.foldl (extractStep f) st).1.map (fun i => i.network_cidr)).Nodup := by
  induction raw with
  | nil => intro st h1 _; simpa using h1
  | cons e rest ih =>
    intro st h1 h2
    simp only [List.foldl_cons]
    obtain ⟨h1', h2'⟩ := extractStep_inv f st e h1 h2
    exact ih _ h1' h2'

theorem extract_physical_cidr_nodup (dev : Device) :
    ((extract_device_interfaces dev "physical").map
      (fun i => i.network_cidr)).Nodup := by
  have heq : extract_device_interfaces dev "physical" =
      (dev.all_ip_interfaces.foldl (extractStep "physical") ([], [])).1 := by
    simp [extract_device_interfaces, extractPart1]
  rw [heq]
  exact extract_part1_cidr_nodup "physical" dev.all_ip_interfaces ([], [])
    (by simp) (by simp)

theorem filter_length_le_one {α κ : Type} [DecidableEq κ]
    (l : List α) (g : α → κ) (c : κ) (h : (l.map g).Nodup) :
    (l.filter (fun x => g x = c)).length ≤ 1 := by
  induction l with
  | nil => simp
  | cons x rest ih =>
    simp only [List.map_cons, List.nodup_cons] at h
    by_cases hx : g x = c
    · have hrest : rest.filter (fun x => g x = c) = [] := by
        rw [List.filter_eq_nil_iff]
        intro y hy hgy
        simp only [decide_eq_true_eq] at hgy
        apply h.1
        have hyx : g y = g x := hgy.trans hx.symm
        exact hyx ▸ List.mem_map.2 ⟨y, hy, rfl⟩
      simp [List.filter_cons, hx, hrest]
    · simpa [List.filter_cons, hx] using ih h.2

theorem nodup_of_length_le_one {α : Type} {l : List α} (h : l.length ≤ 1) :
    l.Nodup := by
  match l, h with
  | [], _ => exact List.nodup_nil
  | [x], _ => exact List.nodup_singleton x
  | x :: y :: rest, h => exact absurd h (by simp)

theorem mem_cidrPairs_names {d : List (String × List IntfData)} {x : String}
    {c : String}
    (hx : x ∈ ((cidrPairs d).filter (fun p => p.1 = c)).map (fun p => p.2.1)) :
    x ∈ keysOf d := by
  rcases List.mem_map.1 hx with ⟨p, hp, hpx⟩
  have h1 := (List.mem_filter.1 hp).1
  simp only [cidrPairs, List.mem_flatMap, List.mem_map] at h1
  obtain ⟨a, ha, i, hi, hip⟩ := h1
  subst hip
  simp only at hpx
  simp only [keysOf]
  rw [← hpx]
  exact List.mem_map.2 ⟨a, ha, rfl⟩

theorem cidrPairs_names_nodup (d : List (String × List IntfData)) (c : String)
    (hkeys : (keysOf d).Nodup)
    (hvals : ∀ e ∈ d, (e.2.map (fun i => i.network_cidr)).Nodup) :
    (((cidrPairs d).filter (fun p => p.1 = c)).map (fun p => p.2.1)).Nodup := by
  induction d with
  | nil => simp [cidrPairs]
  | cons e rest ih =>
    obtain ⟨n, ifs⟩ := e
    simp only [keysOf, List.map_cons, List.nodup_cons] at hkeys
    have hdecomp : cidrPairs ((n, ifs) :: rest) =
        ifs.map (fun i => (i.network_cidr, (n, i))) ++ cidrPairs rest := by
      simp [cidrPairs]
    rw [hdecomp, List.filter_append, List.map_append]
    have hpart1 : ((ifs.map (fun i => (i.network_cidr, (n, i)))).filter
        (fun p => p.1 = c)).map (fun p => p.2.1) =
        (ifs.filter (fun i => i.network_cidr = c)).map (fun _ => n) := by
      rw [List.filter_map, List.map_map]
      rfl
    rw [hpart1]
    have hle : ((ifs.filter (fun i => i.network_cidr = c)).map (fun _ => n)).length ≤ 1 := by
      rw [List.length_map]
      exact filter_length_le_one ifs _ c (hvals (n, ifs) (List.mem_cons_self _ _))
    refine List.Nodup.append ?_ (ih hkeys.2 (fun e he => hvals e (List.mem_cons_of_mem _ he))) ?_
    · exact nodup_of_length_le_one hle
    · intro a ha hb
      have han : a = n := by
        rcases List.mem_map.1 ha with ⟨i, _, hia⟩
        exact hia.symm
      exact hkeys.1 (by simpa [keysOf, ← han] using mem_cidrPairs_names hb)

/-- C10: every Physical link connects two distinct devices, because each
device contributes at most one physical endpoint per `networkCIDR` and
the emitted links come from exactly-two-endpoint CIDR groups. -/
theorem physical_links_distinct_devices (devices : List Device) (l : PhysLink)
    (hl : l ∈ find_physical_links devices) : l.dev1 ≠ l.dev2 := by
  rw [find_physical_links_eq_filterMap] at hl
  rcases List.mem_filterMap.1 hl with ⟨entry, hentry, hemit⟩
  obtain ⟨c, eps⟩ := entry
  match eps, hemit with
  | [e1, e2], hemit =>
    have hl12 : l = mkPhysLink (deviceMetadata devices) c e1 e2 := by
      have : physEmit (deviceMetadata devices) (c, [e1, e2]) =
          some (mkPhysLink (deviceMetadata devices) c e1 e2) := rfl
      rw [this] at hemit
      exact (Option.some_inj.1 hemit).symm
    have hlook : lookupList (physIndex devices) c = [e1, e2] :=
      lookupList_eq_of_mem_nodup (groupPairs_nodupKeys _) hentry
    have hmapeq : (((cidrPairs (deviceInterfaces devices "physical")).filter
        (fun p => p.1 = c)).map (fun p => p.2.1)) = [e1.1, e2.1] := by
      have h2 : ((cidrPairs (deviceInterfaces devices "physical")).filter
          (fun p => p.1 = c)).map Prod.snd = [e1, e2] := by
        rw [← groupPairs_lookupList]
        exact hlook
      have h3 := congrArg (List.map Prod.fst) h2
      rw [List.map_map] at h3
      exact h3
    have hnd : (((cidrPairs (deviceInterfaces devices "physical")).filter
        (fun p => p.1 = c)).map (fun p => p.2.1)).Nodup := by
      refine cidrPairs_names_nodup _ c (deviceInterfaces_nodupKeys devices "physical") ?_
      intro e he
      rcases deviceInterfaces_values devices "physical" e he with ⟨dev, hdev⟩
      rw [hdev]
      exact extract_physical_cidr_nodup dev
    rw [hmapeq] at hnd
    have hne : e1.1 ≠ e2.1 := by
      simp only [List.nodup_cons, List.mem_singleton] at hnd
      exact hnd.1
    rw [hl12]
    exact hne

/-! ### Interface extraction: membership shapes and error fallbacks -/

theorem mem_extract_fold (f : String) (raw : List RawIntf) :
    ∀ (st : List IntfData × List String) (d : IntfData),
      d ∈ (raw.foldl (extractStep f) st).1 →
      d ∈ st.1 ∨ ∃ e ∈ raw, d = rawIntfData e := by
  induction raw with
  | nil => intro st d hd; exact Or.inl (by simpa using hd)
  | cons e rest ih =>
    intro st d hd
    simp only [List.foldl_cons] at hd
    rcases ih _ d hd with h | ⟨e', he', hde⟩
    · by_cases hskip : e.interface = "" ∨ e.ip = ""
      · rw [extractStep, if_pos hskip] at h
        exact Or.inl h
      · by_cases hdup : rawCidr e ∈ st.2
        · rw [extractStep, if_neg hskip, if_pos hdup] at h
          exact Or.inl h
        · rw [extractStep, if_neg hskip, if_neg hdup] at h
          by_cases hkeep : keepFilter f (rawIntfData e)
          · rw [if_pos hkeep] at h
            rcases List.mem_append.1 h with h' | h'
            · exact Or.inl h'
            · exact Or.inr ⟨e, List.mem_cons_self _ _, by simpa using h'⟩
          · rw [if_neg hkeep] at h
            exact Or.inl h
    · exact Or.inr ⟨e', List.mem_cons_of_mem _ he', hde⟩

theorem mem_extract_cases (dev : Device) (f : String) (d : IntfData)
    (hd : d ∈ extract_device_interfaces dev f) :
    (∃ e ∈ dev.all_ip_interfaces, d = rawIntfData e) ∨
      ∃ mi ip, d = mgmtRecord mi ip (mgmtPfx dev) := by
  have hpart1 : ∀ d', d' ∈ extractPart1 dev f →
      ∃ e ∈ dev.all_ip_interfaces, d' = rawIntfData e := by
    intro d' hd'
    rcases mem_extract_fold f dev.all_ip_interfaces ([], []) d' hd' with h | h
    · simp at h
    · exact h
  by_cases hf : f = "all" ∨ f = "mgmt"
  · rw [extract_device_interfaces, if_pos hf] at hd
    match hmi : dev.management_info.mgmtInterface,
        hip : dev.management_info.mgmtIp with
    | some mi, some ip =>
      rw [hmi, hip] at hd
      dsimp only at hd
      by_cases h1 : mi = "" ∨ ip = ""
      · rw [if_pos h1] at hd
        exact Or.inl (hpart1 d hd)
      · rw [if_neg h1] at hd
        by_cases h2 : extractPart1 dev f |>.any (fun i => i.interface = mi ∧ i.ip = ip)
        · rw [if_pos h2] at hd
          exact Or.inl (hpart1 d hd)
        · rw [if_neg h2] at hd
          rcases List.mem_append.1 hd with h | h
          · exact Or.inl (hpart1 d h)
          · exact Or.inr ⟨mi, ip, by simpa using h⟩
    | some mi, none =>
      rw [hmi, hip] at hd
      dsimp only at hd
      exact Or.inl (hpart1 d hd)
    | none, some ip =>
      rw [hmi, hip] at hd
      dsimp only at hd
      exact Or.inl (hpart1 d hd)
    | none, none =>
      rw [hmi, hip] at hd
      dsimp only at hd
      exact Or.inl (hpart1 d hd)
  · rw [extract_device_interfaces, if_neg hf] at hd
    exact Or.inl (hpart1 d hd)

theorem ipv4NetworkOf_of_parse_none {ip : String} (p : ℕ)
    (h : parseIPv4 ip = none) : ipv4NetworkOf ip p = none := by
  unfold ipv4NetworkOf
  split_ifs <;> simp [h]

/-- C4 amended: a descriptor whose IP does not parse is not dropped; it
is retained with the fallback `networkCIDR` string `f"{ip}/{prefix}"`
(and, grouped under that literal string, may still form links — see the
counterexample).  Extraction and link finding are total, so no input
aborts the run. -/
theorem malformed_ip_fallback_cidr (dev : Device) (f : String) (d : IntfData)
    (hd : d ∈ extract_device_interfaces dev f)
    (hip : parseIPv4 d.ip = none) :
    d.network_cidr = d.ip ++ "/" ++ pyNatStr d.prefixLen := by
  rcases mem_extract_cases dev f d hd with ⟨e, _, hde⟩ | ⟨mi, ip, hde⟩
  · subst hde
    have h1 : (rawIntfData e).ip = e.ip := rfl
    rw [h1] at hip
    have h2 : rawCidr e = e.ip ++ "/" ++ pyNatStr (rawPfx e) := by
      rw [rawCidr, ipv4NetworkOf_of_parse_none (rawPfx e) hip]
    exact h2
  · subst hde
    rfl

/-! ### Concrete devices used by witnesses and counterexamples -/

/-- Empty `management_info`. -/
def noMgmt : MgmtInfo := ⟨none, none, none⟩

/-- Router `R1` with one physical /31 interface. -/
def devR1 : Device :=
  ⟨"R1", "huawei", "router", [⟨"GE1/0/1", "10.0.0.0", "31", ""⟩], noMgmt⟩

/-- Router `R2` on the other end of `R1`'s /31. -/
def devR2 : Device :=
  ⟨"R2", "huawei", "router", [⟨"GE1/0/2", "10.0.0.1", "31", ""⟩], noMgmt⟩

/-- Device `X` whose interface IP `300.0.0.1` is not a valid IPv4
address. -/
def devX : Device :=
  ⟨"X", "v", "t", [⟨"GE1/0/1", "300.0.0.1", "31", ""⟩], noMgmt⟩

/-- Device `Y` carrying the same malformed IP string as `X`. -/
def devY : Device :=
  ⟨"Y", "v", "t", [⟨"GE1/0/2", "300.0.0.1", "31", ""⟩], noMgmt⟩

/-- Witness for C10: on the two-router input the single produced link is
between distinct devices, with every hypothesis checked by evaluation. -/
theorem physical_links_distinct_devices_witness :
    (⟨"R1", "huawei", "router", "GE1/0/1", "10.0.0.0",
      "R2", "huawei", "router", "GE1/0/2", "10.0.0.1", "10.0.0.0/31"⟩ :
        PhysLink).dev1 ≠
    (⟨"R1", "huawei", "router", "GE1/0/1", "10.0.0.0",
      "R2", "huawei", "router", "GE1/0/2", "10.0.0.1", "10.0.0.0/31"⟩ :
        PhysLink).dev2 :=
  physical_links_distinct_devices [devR1, devR2] _ (by decide)

/-- C4 counterexample: the malformed address `300.0.0.1` does not parse,
yet the two interfaces carrying it are grouped under the literal string
`300.0.0.1/31` and produce a Physical link — the record is not excluded
from grouping and contributes a link. -/
theorem malformed_ip_forms_link_counterexample :
    parseIPv4 "300.0.0.1" = none ∧
      find_physical_links [devX, devY] =
        [⟨"X", "v", "t", "GE1/0/1", "300.0.0.1",
          "Y", "v", "t", "GE1/0/2", "300.0.0.1", "300.0.0.1/31"⟩] := by
  constructor
  · decide
  · decide

/-- Witness for the amended C4: the fallback-CIDR conclusion applied to
the concrete malformed interface of `devX`. -/
theorem malformed_ip_fallback_cidr_witness :
    (rawIntfData ⟨"GE1/0/1", "300.0.0.1", "31", ""⟩).network_cidr =
      (rawIntfData ⟨"GE1/0/1", "300.0.0.1", "31", ""⟩).ip ++ "/" ++
        pyNatStr (rawIntfData ⟨"GE1/0/1", "300.0.0.1", "31", ""⟩).prefixLen :=
  malformed_ip_fallback_cidr devX "all" _ (by decide) (by decide)

/-! ### Canonical network addresses (C2) -/

theorem splitDots_ne_nil (l : List Char) : splitDots l ≠ [] := by
  cases l with
  | nil => simp [splitDots]
  | cons c cs => by_cases h : c = '.' <;> simp [splitDots, h]

theorem mem_splitDots {l : List Char} {c : Char} (hc : c ∈ l) (hne : c ≠ '.') :
    ∃ g ∈ splitDots l, c ∈ g := by
  induction l with
  | nil => simp at hc
  | cons c0 cs ih =>
    obtain ⟨g0, gs, hs⟩ := List.exists_cons_of_ne_nil (splitDots_ne_nil cs)
    rcases List.mem_cons.1 hc with h | h
    · subst h
      rw [splitDots, hs, if_neg hne]
      exact ⟨c :: (g0 :: gs).headI, List.mem_cons_self _ _, List.mem_cons_self _ _⟩
    · rcases ih h with ⟨g, hg, hcg⟩
      rw [hs] at hg
      rw [splitDots, hs]
      by_cases h0 : c0 = '.'
      · rw [if_pos h0]
        exact ⟨g, List.mem_cons_of_mem _ (hs ▸ hg), hcg⟩
      · rw [if_neg h0]
        rcases List.mem_cons.1 hg with h' | h'
        · subst h'
          exact ⟨c0 :: (g :: gs).headI, List.mem_cons_self _ _, by
            simp only [List.headI]
            exact List.mem_cons_of_mem _ hcg⟩
        · exact ⟨g, by
            simp only [List.tail]
            exact List.mem_cons_of_mem _ h', hcg⟩

theorem parseOctet_digits {g : List Char} {v : ℕ} (h : parseOctet g = some v) :
    g.all isDigitChar = true := by
  by_cases hall : g.all isDigitChar
  · exact hall
  · rw [parseOctet] at h
    split_ifs at h <;> simp_all

theorem parseIPv4_no_slash {s : String} {a : ℕ} (h : parseIPv4 s = some a) :
    s.data.contains '/' = false := by
  by_cases hmem : '/' ∈ s.data
  · exfalso
    rw [parseIPv4] at h
    split at h
    · rename_i g1 g2 g3 g4 hs
      split at h
      · rename_i v1 v2 v3 v4 h1 h2 h3 h4
        rcases mem_splitDots hmem (by decide) with ⟨g, hg, hcg⟩
        rw [hs] at hg
        simp only [List.mem_cons, List.not_mem_nil, or_false] at hg
        have hdig : g.all isDigitChar = true := by
          rcases hg with hg | hg | hg | hg
          · exact hg ▸ parseOctet_digits h1
          · exact hg ▸ parseOctet_digits h2
          · exact hg ▸ parseOctet_digits h3
          · exact hg ▸ parseOctet_digits h4
        have h47 := List.all_eq_true.1 hdig '/' hcg
        simp [isDigitChar] at h47
      · simp at h
    · simp at h
  · simpa using hmem

/-- C2 amended: a descriptor produced from the `all_ip_interfaces`
source whose IP parses and whose prefix length lies in [0, 32] carries
the canonical network address — the rendered `network/prefix` CIDR whose
host bits are zero.  Descriptors from the `management_info` source
instead carry the raw `f"{ip}/{prefix}"` host-form string (see the
counterexample), so the source restriction is necessary. -/
theorem allip_network_cidr_canonical (dev : Device) (f : String) (d : IntfData)
    (a : ℕ) (hd : d ∈ extract_device_interfaces dev f)
    (hsrc : d.source = "all_ip") (hp : d.prefixLen ≤ 32)
    (ha : parseIPv4 d.ip = some a) :
    d.network_cidr = renderCIDR (netOf a d.prefixLen) d.prefixLen ∧
      netOf a d.prefixLen % 2 ^ (32 - d.prefixLen) = 0 := by
  rcases mem_extract_cases dev f d hd with ⟨e, _, hde⟩ | ⟨mi, ip, hde⟩
  · subst hde
    have hip : (rawIntfData e).ip = e.ip := rfl
    have hpl : (rawIntfData e).prefixLen = rawPfx e := rfl
    rw [hip] at ha
    rw [hpl] at hp ⊢
    refine ⟨?_, Nat.mul_mod_left _ _⟩
    show rawCidr e = _
    have hsl := parseIPv4_no_slash ha
    rw [rawCidr, ipv4NetworkOf, if_neg (by simpa using hsl), if_pos hp, ha]
    rfl
  · subst hde
    simp [mgmtRecord] at hsrc

/-- Switch `SW1` whose only address comes from `management_info`. -/
def devSW1 : Device :=
  ⟨"SW1", "cisco", "switch", [], ⟨some "Mgmt0", some "10.7.8.5", some "24"⟩⟩

/-- C2 counterexample: the management-info descriptor of `SW1` carries
the host-form string `10.7.8.5/24` even though its IP parses and its
prefix is valid; the canonical network address would be `10.7.8.0/24`. -/
theorem mgmt_cidr_not_canonical_counterexample :
    extract_device_interfaces devSW1 "mgmt" = [mgmtRecord "Mgmt0" "10.7.8.5" 24] ∧
      (mgmtRecord "Mgmt0" "10.7.8.5" 24).network_cidr = "10.7.8.5/24" ∧
      parseIPv4 (mgmtRecord "Mgmt0" "10.7.8.5" 24).ip = some 168232965 ∧
      (mgmtRecord "Mgmt0" "10.7.8.5" 24).prefixLen = 24 ∧
      renderCIDR (netOf 168232965 24) 24 = "10.7.8.0/24" ∧
      (mgmtRecord "Mgmt0" "10.7.8.5" 24).network_cidr ≠
        renderCIDR (netOf 168232965 24) 24 := by
  refine ⟨by decide, by decide, by decide, by decide, by decide, by decide⟩

/-- Witness for the amended C2: the canonical-CIDR conclusion applied to
the concrete /31 interface of `devR1`. -/
theorem allip_network_cidr_canonical_witness :
    (rawIntfData ⟨"GE1/0/1", "10.0.0.0", "31", ""⟩).network_cidr =
      renderCIDR (netOf 167772160 (rawIntfData ⟨"GE1/0/1", "10.0.0.0", "31", ""⟩).prefixLen)
        (rawIntfData ⟨"GE1/0/1", "10.0.0.0", "31", ""⟩).prefixLen ∧
      netOf 167772160 (rawIntfData ⟨"GE1/0/1", "10.0.0.0", "31", ""⟩).prefixLen %
        2 ^ (32 - (rawIntfData ⟨"GE1/0/1", "10.0.0.0", "31", ""⟩).prefixLen) = 0 :=
  allip_network_cidr_canonical devR1 "all" _ 167772160 (by decide) (by decide)
    (by decide) (by decide)

/-! ### Netmask resolution (C3) -/

/-- C3 counterexample: the digit string "33" is neither a dotted-decimal
mask nor a prefix length in [0, 32], yet `netmask_to_prefix` returns 33
instead of raising `InvalidMask` — digit strings bypass the range check. -/
theorem netmask_33_counterexample : netmaskToPrefixLen "33" = some 33 := by decide

/-- C3 amended: `netmask_to_prefix` returns any stripped all-digits
argument as its integer value with no 0–32 range validation; every
dotted-decimal netmask resolves to its prefix length; and every
slash-free non-digit argument resolves exactly as `ipaddress`'s netmask
parser does, with `none` modelling the raised `InvalidMask` error. -/
theorem netmask_to_prefix_behaviour :
    (∀ s : String, pyIsdigit (pyStrip s) = true →
      netmaskToPrefixLen s = some (natOfDigits (pyStrip s).data)) ∧
    (∀ p : ℕ, p ≤ 32 → netmaskToPrefixLen (renderIP (maskOf p)) = some p) ∧
    (∀ s : String, pyIsdigit (pyStrip s) = false → s.data.contains '/' = false →
      netmaskToPrefixLen s = makeNetmask s) := by
  refine ⟨?_, ?_, ?_⟩
  · intro s h
    rw [netmaskToPrefixLen, if_pos h]
  · intro p hp
    interval_cases p <;> decide
  · intro s h1 h2
    rw [netmaskToPrefixLen, if_neg (by simp [h1]), if_neg (by simpa using h2)]

/-- Witness for the amended C3 at "33", prefix 24 and "garbage". -/
theorem netmask_to_prefix_behaviour_witness :
    netmaskToPrefixLen "33" = some (natOfDigits (pyStrip "33").data) ∧
      netmaskToPrefixLen (renderIP (maskOf 24)) = some 24 ∧
      netmaskToPrefixLen "garbage" = makeNetmask "garbage" :=
  ⟨netmask_to_prefix_behaviour.1 "33" (by decide),
    netmask_to_prefix_behaviour.2.1 24 (by decide),
    netmask_to_prefix_behaviour.2.2 "garbage" (by decide) (by decide)⟩

/-! ### Management-link ordering (C9) -/

theorem strExt {a b : String} (h : a.data = b.data) : a = b := by
  cases a; cases b; exact congrArg String.mk h

theorem charListLt_trans : ∀ {a b c : List Char},
    charListLt a b = true → charListLt b c = true → charListLt a c = true := by
  intro a
  induction a with
  | nil =>
    intro b c hab hbc
    cases b with
    | nil => simp [charListLt] at hab
    | cons x xs =>
      cases c with
      | nil => simp [charListLt] at hbc
      | cons y ys => simp [charListLt]
  | cons x xs ih =>
    intro b c hab hbc
    cases b with
    | nil => simp [charListLt] at hab
    | cons y ys =>
      cases c with
      | nil => simp [charListLt] at hbc
      | cons z zs =>
        rw [charListLt] at hab hbc ⊢
        by_cases hxy : x.toNat < y.toNat
        · by_cases hyz : y.toNat < z.toNat
          · rw [if_pos (Nat.lt_trans hxy hyz)]
          · rw [if_neg hyz] at hbc
            by_cases hzy : z.toNat < y.toNat
            · rw [if_pos hzy] at hbc; exact absurd hbc (by simp)
            · have : y.toNat = z.toNat := Nat.le_antisymm (Nat.le_of_not_lt hzy) (Nat.le_of_not_lt hyz)
              rw [if_pos (this ▸ hxy)]
        · rw [if_neg hxy] at hab
          by_cases hyx : y.toNat < x.toNat
          · rw [if_pos hyx] at hab; exact absurd hab (by simp)
          · have hxyeq : x.toNat = y.toNat := Nat.le_antisymm (Nat.le_of_not_lt hyx) (Nat.le_of_not_lt hxy)
            rw [if_neg hyx] at hab
            by_cases hyz : y.toNat < z.toNat
            · rw [if_pos (hxyeq ▸ hyz)]
            · rw [if_neg hyz] at hbc
              by_cases hzy : z.toNat < y.toNat
              · rw [if_pos hzy] at hbc; exact absurd hbc (by simp)
              · rw [if_neg hzy] at hbc
                rw [if_neg (hxyeq ▸ hyz), if_neg (by omega)]
                exact ih hab hbc
  
theorem charListLt_antisymm : ∀ {a b : List Char},
    charListLt a b = false → charListLt b a = false → a = b := by
  intro a
  induction a with
  | nil =>
    intro b hab _
    cases b with
    | nil => rfl
    | cons y ys => simp [charListLt] at hab
  | cons x xs ih =>
    intro b hab hba
    cases b with
    | nil => simp [charListLt] at hba
    | cons y ys =>
      rw [charListLt] at hab hba
      by_cases hxy : x.toNat < y.toNat
      · rw [if_pos hxy] at hab; exact absurd hab (by simp)
      · by_cases hyx : y.toNat < x.toNat
        · rw [if_pos hyx] at hba; exact absurd hba (by simp)
        · have hxyeq : x.toNat = y.toNat := Nat.le_antisymm (Nat.le_of_not_lt hyx) (Nat.le_of_not_lt hxy)
          have hchar : x = y := Char.ofNat_toNat x ▸ Char.ofNat_toNat y ▸ congrArg Char.ofNat hxyeq
          rw [if_neg hxy, if_neg hyx] at hab
          rw [if_neg hyx, if_neg hxy] at hba
          rw [hchar, ih hab hba]

theorem pyStrLe_trans {a b c : String} (h1 : pyStrLe a b = true)
    (h2 : pyStrLe b c = true) : pyStrLe a c = true := by
  simp only [pyStrLe, Bool.or_eq_true, decide_eq_true_eq] at h1 h2 ⊢
  rcases h1 with h1 | h1
  · rcases h2 with h2 | h2
    · exact Or.inl (charListLt_trans h1 h2)
    · exact Or.inl (h2 ▸ h1)
  · exact h1 ▸ h2

theorem pyStrLe_total (a b : String) : (pyStrLe a b || pyStrLe b a) = true := by
  simp only [pyStrLe, Bool.or_eq_true, decide_eq_true_eq]
  by_cases h1 : pyStrLt a b = true
  · tauto
  · by_cases h2 : pyStrLt b a = true
    · tauto
    · have : a = b := strExt (charListLt_antisymm (by simpa [pyStrLt] using h1)
        (by simpa [pyStrLt] using h2))
      tauto

theorem pyStrLt_trans {a b c : String} (h1 : pyStrLt a b = true)
    (h2 : pyStrLt b c = true) : pyStrLt a c = true :=
  charListLt_trans h1 h2

theorem mgmtKeyLe_trans (a b c : MgmtLink) (h1 : mgmtKeyLe a b = true)
    (h2 : mgmtKeyLe b c = true) : mgmtKeyLe a c = true := by
  simp only [mgmtKeyLe, Bool.or_eq_true, Bool.and_eq_true, decide_eq_true_eq] at h1 h2 ⊢
  rcases h1 with h1 | ⟨h1e, h1d⟩
  · rcases h2 with h2 | ⟨h2e, h2d⟩
    · exact Or.inl (pyStrLt_trans h1 h2)
    · exact Or.inl (h2e ▸ h1)
  · rcases h2 with h2 | ⟨h2e, h2d⟩
    · exact Or.inl (by rw [h1e]; exact h2)
    · exact Or.inr ⟨h1e.trans h2e, pyStrLe_trans h1d h2d⟩

theorem mgmtKeyLe_total (a b : MgmtLink) : (mgmtKeyLe a b || mgmtKeyLe b a) = true := by
  simp only [mgmtKeyLe, Bool.or_eq_true, Bool.and_eq_true, decide_eq_true_eq]
  by_cases h1 : pyStrLt a.network b.network = true
  · tauto
  · by_cases h2 : pyStrLt b.network a.network = true
    · tauto
    · have heq : a.network = b.network := strExt (charListLt_antisymm
        (by simpa [pyStrLt] using h1) (by simpa [pyStrLt] using h2))
      have htot := pyStrLe_total a.device b.device
      simp only [Bool.or_eq_true] at htot
      rcases htot with h | h
      · exact Or.inl (Or.inr ⟨heq, h⟩)
      · exact Or.inr (Or.inr ⟨heq.symm, h⟩)

/-- C9: the management-link rows returned by `find_mgmt_interfaces` are
sorted in non-decreasing lexicographic order of
`(networkCIDR, deviceName)` for every input device list. -/
theorem mgmt_interfaces_sorted (devices : List Device) :
    List.Sorted (fun a b => mgmtKeyLe a b = true) (find_mgmt_interfaces devices) := by
  rw [find_mgmt_interfaces]
  exact List.sorted_mergeSort mgmtKeyLe_trans mgmtKeyLe_total _

/-! ### Service networks: C5 -/

theorem string_append_left_cancel {a b c : String} (h : a ++ b = a ++ c) :
    b = c := by
  have hd := congrArg String.data h
  simp only [String.data_append] at hd
  exact strExt (List.append_cancel_left hd)

theorem upairs_length {α : Type} (l : List α) :
    (upairs l).length = Nat.choose l.length 2 := by
  induction l with
  | nil => simp [upairs]
  | cons x xs ih =>
    simp only [upairs, List.length_append, List.length_map, ih, List.length_cons]
    rw [Nat.choose_succ_succ, Nat.choose_one_right]

/-- The Service-Network links one index entry contributes: all pairwise
combinations when it has at least two endpoints. -/
def serviceEmit (meta : List (String × Meta))
    (entry : String × List (String × IntfData)) : List LogLink :=
  if entry.2.length < 2 then []
  else (upairs entry.2).map (fun pr =>
    mkLogLink meta pr.1 pr.2 ("Service Network: " ++ entry.1))

theorem mkLogLink_descr (meta : List (String × Meta))
    (e1 e2 : String × IntfData) (descr : String) :
    (mkLogLink meta e1 e2 descr).descr = descr := rfl

theorem serviceFold_eq_flatMap (meta : List (String × Meta))
    (es : List (String × List (String × IntfData))) :
    ∀ (ls : List LogLink) (ps : List String),
      (∀ t ∈ ps, t ∉ es.map Prod.fst) → (es.map Prod.fst).Nodup →
      (es.foldl (serviceStep meta) (ls, ps)).1 = ls ++ es.flatMap (serviceEmit meta) := by
  induction es with
  | nil => intro ls ps _ _; simp
  | cons entry rest ih =>
    intro ls ps hps hnd
    simp only [List.map_cons, List.nodup_cons] at hnd
    rw [List.foldl_cons]
    by_cases hlen : entry.2.length < 2
    · have hstep : serviceStep meta (ls, ps) entry = (ls, ps) := by
        rw [serviceStep, if_pos (Or.inl hlen)]
      have hemit : serviceEmit meta entry = [] := by
        rw [serviceEmit, if_pos hlen]
      rw [hstep, ih ls ps (fun t ht hm => hps t ht (List.mem_cons_of_mem _ hm)) hnd.2,
        List.flatMap_cons, hemit]
      simp
    · have hkey : entry.1 ∉ ps := fun hk => hps _ hk (List.mem_cons_self _ _)
      have hstep : serviceStep meta (ls, ps) entry =
          (ls ++ (upairs entry.2).map (fun pr =>
            mkLogLink meta pr.1 pr.2 ("Service Network: " ++ entry.1)),
            ps ++ [entry.1]) := by
        rw [serviceStep, if_neg (by push_neg; exact ⟨Nat.le_of_not_lt hlen, hkey⟩)]
      rw [hstep, ih _ _ ?_ hnd.2]
      · rw [List.flatMap_cons, serviceEmit, if_neg hlen, List.append_assoc]
      · intro t ht
        rcases List.mem_append.1 ht with h | h
        · exact fun hm => hps t h (List.mem_cons_of_mem _ hm)
        · have : t = entry.1 := by simpa using h
          exact this ▸ hnd.1

theorem flatMap_serviceEmit_count_zero (meta : List (String × Meta))
    (d : List (String × List (String × IntfData))) (c : String)
    (h : c ∉ d.map Prod.fst) :
    ((d.flatMap (serviceEmit meta)).filter
      (fun l => l.descr = "Service Network: " ++ c)).length = 0 := by
  induction d with
  | nil => rfl
  | cons entry rest ih =>
    simp only [List.map_cons, List.mem_cons] at h
    push_neg at h
    have hne : ¬ entry.1 = c := fun hh => h.1 hh.symm
    rw [List.flatMap_cons, List.filter_append, List.length_append]
    have hhead : (serviceEmit meta entry).filter
        (fun l => l.descr = "Service Network: " ++ c) = [] := by
      rw [List.filter_eq_nil_iff]
      intro l hl
      rw [serviceEmit] at hl
      split_ifs at hl with h2
      · simp at hl
      · rcases List.mem_map.1 hl with ⟨pr, _, hpr⟩
        rw [← hpr, mkLogLink_descr]
        simp only [decide_eq_true_eq]
        intro hcontra
        exact hne (string_append_left_cancel hcontra)
    rw [hhead, ih h.2]
    rfl

theorem flatMap_serviceEmit_count (meta : List (String × Meta))
    (d : List (String × List (String × IntfData))) (c : String)
    (hnd : (d.map Prod.fst).Nodup) :
    ((d.flatMap (serviceEmit meta)).filter
      (fun l => l.descr = "Service Network: " ++ c)).length =
      Nat.choose (lookupList d c).length 2 := by
  induction d with
  | nil => simp [lookupList]
  | cons entry rest ih =>
    obtain ⟨k, eps⟩ := entry
    simp only [List.map_cons, List.nodup_cons] at hnd
    rw [List.flatMap_cons, List.filter_append, List.length_append]
    by_cases hk : k = c
    · subst hk
      have hlook : lookupList ((k, eps) :: rest) k = eps := by simp [lookupList]
      rw [hlook]
      have htail := flatMap_serviceEmit_count_zero meta rest k hnd.1
      rw [htail, Nat.add_zero]
      by_cases hlen : eps.length < 2
      · have : serviceEmit meta (k, eps) = [] := by rw [serviceEmit, if_pos hlen]
        rw [this]
        match eps, hlen with
        | [], _ => simp
        | [e], _ => simp
      · have hemit : serviceEmit meta (k, eps) = (upairs eps).map (fun pr =>
            mkLogLink meta pr.1 pr.2 ("Service Network: " ++ k)) := by
          rw [serviceEmit, if_neg hlen]
        rw [hemit]
        have hall : ((upairs eps).map (fun pr =>
            mkLogLink meta pr.1 pr.2 ("Service Network: " ++ k))).filter
            (fun l => l.descr = "Service Network: " ++ k) =
            (upairs eps).map (fun pr =>
              mkLogLink meta pr.1 pr.2 ("Service Network: " ++ k)) := by
          rw [List.filter_eq_self]
          intro l hl
          rcases List.mem_map.1 hl with ⟨pr, _, hpr⟩
          rw [← hpr, mkLogLink_descr]
          simp
        rw [hall, List.length_map, upairs_length]
    · have hlook : lookupList ((k, eps) :: rest) c = lookupList rest c := by
        simp [lookupList, hk]
      rw [hlook]
      have hhead : (serviceEmit meta (k, eps)).filter
          (fun l => l.descr = "Service Network: " ++ c) = [] := by
        rw [List.filter_eq_nil_iff]
        intro l hl
        rw [serviceEmit] at hl
        split_ifs at hl with h2
        · simp at hl
        · rcases List.mem_map.1 hl with ⟨pr, _, hpr⟩
          rw [← hpr, mkLogLink_descr]
          simp only [decide_eq_true_eq]
          intro hcontra
          exact hk (string_append_left_cancel hcontra)
      rw [hhead]
      simpa using ih hnd.2

/-- Device `A` with a bridge-type (Vlanif) interface in 172.16.5.0/24. -/
def devA : Device := ⟨"A", "v", "t", [⟨"Vlanif100", "172.16.5.1", "24", ""⟩], noMgmt⟩

/-- Device `B` with a bridge-type interface in the same /24. -/
def devB : Device := ⟨"B", "v", "t", [⟨"Vlanif100", "172.16.5.2", "24", ""⟩], noMgmt⟩

/-- Device `C` with a bridge-type interface in the same /24. -/
def devC : Device := ⟨"C", "v", "t", [⟨"Vlanif100", "172.16.5.3", "24", ""⟩], noMgmt⟩

/-- Device `A2` whose only interface is a Vbdif with prefix 24, which the
`logical` filter classifies as management and drops. -/
def devA2 : Device := ⟨"A2", "v", "t", [⟨"Vbdif10", "172.16.5.1", "24", ""⟩], noMgmt⟩

/-- Device `B2`, the peer of `A2` in the same /24. -/
def devB2 : Device := ⟨"B2", "v", "t", [⟨"Vbdif10", "172.16.5.2", "24", ""⟩], noMgmt⟩

/-- C5 counterexample: the `logical`-filtered interface sets of `A2` and
`B2` are empty (their Vbdif /24 interfaces are management-classified),
yet the service-network pass still emits one LogicalService link for
them — the pass draws on the full (`all`-filtered) interface set, not the
`logical`-filtered one. -/
theorem service_links_not_logical_filtered_counterexample :
    extract_device_interfaces devA2 "logical" = [] ∧
      extract_device_interfaces devB2 "logical" = [] ∧
      find_logical_links [devA2, devB2] =
        [⟨"A2", "v", "t", "Vbdif10/172.16.5.1", "B2", "v", "t",
          "Vbdif10/172.16.5.2", "Service Network: 172.16.5.0/24"⟩] := by
  refine ⟨by decide, by decide, by decide⟩

/-- C5 amended: the service-network pass groups bridge-type
(Vbdif/Vlanif) interfaces of the full (`all`-filtered) interface set with
prefix length in [24, 28] by `networkCIDR`, and a CIDR with `n`
contributing endpoints yields exactly `C(n, 2)` LogicalService links (one
per unordered endpoint pair, hence none when `n < 2`); in particular
devices `A`, `B`, `C` sharing 172.16.5.0/24 yield exactly the three links
A-B, A-C, B-C. -/
theorem service_network_pair_counting :
    (∀ (devices : List Device) (cidr : String),
      ((serviceNetworkPass devices).1.filter
        (fun l => l.descr = "Service Network: " ++ cidr)).length =
        Nat.choose (lookupList (serviceIndex devices) cidr).length 2) ∧
    find_logical_links [devA, devB, devC] =
      [⟨"A", "v", "t", "Vlanif100/172.16.5.1", "B", "v", "t",
        "Vlanif100/172.16.5.2", "Service Network: 172.16.5.0/24"⟩,
       ⟨"A", "v", "t", "Vlanif100/172.16.5.1", "C", "v", "t",
        "Vlanif100/172.16.5.3", "Service Network: 172.16.5.0/24"⟩,
       ⟨"B", "v", "t", "Vlanif100/172.16.5.2", "C", "v", "t",
        "Vlanif100/172.16.5.3", "Service Network: 172.16.5.0/24"⟩] := by
  constructor
  · intro devices cidr
    have hfold := serviceFold_eq_flatMap (deviceMetadata devices)
      (serviceIndex devices) [] [] (by intro t ht; simp at ht)
      (groupPairs_nodupKeys _)
    rw [serviceNetworkPass, hfold]
    simpa using flatMap_serviceEmit_count (deviceMetadata devices)
      (serviceIndex devices) cidr (groupPairs_nodupKeys _)
  · decide

/-! ### VXLAN overlay deduplication (C6) -/

theorem toNat_ofNat_digit (d : ℕ) (h : d < 10) :
    (Char.ofNat (48 + d)).toNat = 48 + d := by
  interval_cases d <;> decide

theorem valOfRevDigits_natDigitsAux :
    ∀ (fuel n : ℕ), n < 10 ^ fuel → valOfRevDigits (natDigitsAux fuel n) = n := by
  intro fuel
  induction fuel with
  | zero =>
    intro n hn
    interval_cases n
    rfl
  | succ fuel ih =>
    intro n hn
    by_cases h10 : n < 10
    · rw [natDigitsAux, if_pos h10, valOfRevDigits, valOfRevDigits,
        toNat_ofNat_digit n h10]
      omega
    · rw [natDigitsAux, if_neg h10, valOfRevDigits,
        toNat_ofNat_digit (n % 10) (Nat.mod_lt n (by norm_num)),
        ih (n / 10) (by
          rw [pow_succ] at hn
          exact Nat.div_lt_of_lt_mul (Nat.mul_comm (10 ^ fuel) 10 ▸ hn))]
      omega

theorem pyNatStr_injective {m n : ℕ} (h : pyNatStr m = pyNatStr n) : m = n := by
  have hlt : ∀ k : ℕ, k < 10 ^ (k + 1) := by
    intro k
    calc k < 2 ^ k := Nat.lt_two_pow k
    _ ≤ 10 ^ k := Nat.pow_le_pow_left (by norm_num) k
    _ ≤ 10 ^ (k + 1) := Nat.pow_le_pow_right (by norm_num) (Nat.le_succ k)
  have hdata := congrArg String.data h
  simp only [pyNatStr] at hdata
  have hrev := congrArg List.reverse hdata
  simp only [List.reverse_reverse] at hrev
  have hm := valOfRevDigits_natDigitsAux (m + 1) m (hlt m)
  have hn := valOfRevDigits_natDigitsAux (n + 1) n (hlt n)
  rw [← hm, ← hn, hrev]

theorem vniDescr_injective {v1 v2 : ℕ} (h : vniDescr v1 = vniDescr v2) :
    v1 = v2 := by
  have hd := congrArg String.data h
  simp only [vniDescr, String.data_append] at hd
  have h1 := List.append_cancel_right hd
  have h2 := List.append_cancel_left h1
  exact pyNatStr_injective (strExt h2)

/-- The per-link key the overlay pairwise property is about: the
unordered device pair together with the description string. -/
def overlayDistinct (l1 l2 : LogLink) : Prop :=
  ¬ (pyMin l1.dev1 l1.dev2 = pyMin l2.dev1 l2.dev2 ∧
     pyMax l1.dev1 l1.dev2 = pyMax l2.dev1 l2.dev2 ∧ l1.descr = l2.descr)

/-- A processed VNI key accounts for a link when it records the link's
unordered pair and its description's VNI. -/
def keyMatches (k : String × String × ℕ) (l : LogLink) : Prop :=
  k.1 = pyMin l.dev1 l.dev2 ∧ k.2.1 = pyMax l.dev1 l.dev2 ∧ l.descr = vniDescr k.2.2

theorem vxlanFold_pairwise (meta : List (String × Meta))
    (cands : List ((String × IntfData) × (String × IntfData) × ℕ)) :
    ∀ (ls : List LogLink) (ps : List (String × String × ℕ)),
      (∀ l ∈ ls, ∃ k ∈ ps, keyMatches k l) → List.Pairwise overlayDistinct ls →
      List.Pairwise overlayDistinct (cands.foldl (vxlanStep meta) (ls, ps)).1 ∧
        ∀ l ∈ (cands.foldl (vxlanStep meta) (ls, ps)).1,
          ∃ k ∈ (cands.foldl (vxlanStep meta) (ls, ps)).2, keyMatches k l := by
  induction cands with
  | nil => intro ls ps hinv hpw; exact ⟨hpw, hinv⟩
  | cons c rest ih =>
    intro ls ps hinv hpw
    rw [List.foldl_cons]
    by_cases hk : vniKey c ∈ ps
    · rw [vxlanStep, if_pos hk]
      exact ih ls ps hinv hpw
    · rw [vxlanStep, if_neg hk]
      apply ih
      · intro l hl
        rcases List.mem_append.1 hl with h | h
        · rcases hinv l h with ⟨k, hkps, hkm⟩
          exact ⟨k, List.mem_append.2 (Or.inl hkps), hkm⟩
        · have hleq : l = mkLogLink meta c.1 c.2.1 (vniDescr c.2.2) := by simpa using h
          refine ⟨vniKey c, List.mem_append.2 (Or.inr (by simp)), ?_⟩
          rw [hleq]
          exact ⟨rfl, rfl, rfl⟩
      · rw [List.pairwise_append]
        refine ⟨hpw, List.pairwise_singleton _ _, ?_⟩
        intro l1 hl1 l2 hl2
        have hl2eq : l2 = mkLogLink meta c.1 c.2.1 (vniDescr c.2.2) := by simpa using hl2
        rcases hinv l1 hl1 with ⟨k, hkps, hkm⟩
        intro hcol
        apply hk
        have h1 : k.1 = (vniKey c).1 := by
          rw [hkm.1, hcol.1, hl2eq]
          rfl
        have h2 : k.2.1 = (vniKey c).2.1 := by
          rw [hkm.2.1, hcol.2.1, hl2eq]
          rfl
        have h3 : k.2.2 = (vniKey c).2.2 := by
          apply vniDescr_injective
          rw [← hkm.2.2, hcol.2.2, hl2eq]
          rfl
        have hkeq : k = vniKey c := by
          obtain ⟨a, b, v⟩ := k
          simp only at h1 h2 h3
          rw [show vniKey c = ((vniKey c).1, (vniKey c).2.1, (vniKey c).2.2) from rfl]
          rw [← h1, ← h2, ← h3]
        rw [← hkeq]
        exact hkps

/-- C6: the VXLAN overlay pass never emits two links with the same
unordered device pair and the same overlay-identifier description —
every key is deduplicated through `processed_vni_pairs` — and, being a
pure function of its input, running the pass twice on the same input
yields the same deduplicated result. -/
theorem vxlan_overlay_dedup (devices : List Device) :
    List.Pairwise overlayDistinct (vxlanOverlayPass devices) ∧
      vxlanOverlayPass devices = vxlanOverlayPass devices := by
  refine ⟨?_, rfl⟩
  have h := vxlanFold_pairwise (deviceMetadata devices) (vxlanCandidates devices)
    [] [] (by intro l hl; simp at hl) List.Pairwise.nil
  exact h.1

/-! ### Overlap resolution (C7) -/

theorem setPos_const (ids : List String) (v : ℚ × ℚ) (k : String) :
    setPos (ids.map (fun i => (i, v))) k v = ids.map (fun i => (i, v)) := by
  rw [setPos, List.map_map]
  congr 1
  funext i
  by_cases h : i = k <;> simp [h]

theorem getPos_const {ids : List String} (v : ℚ × ℚ) {k : String}
    (hk : k ∈ ids) : getPos (ids.map (fun i => (i, v))) k = v := by
  induction ids with
  | nil => simp at hk
  | cons i rest ih =>
    rcases List.mem_cons.1 hk with h | h
    · subst h
      simp [getPos, lookupD]
    · by_cases hik : i = k
      · subst hik
        simp [getPos, lookupD]
      · simp only [List.map_cons, getPos, lookupD, if_neg hik]
        exact ih h

theorem overlapStep_const (all : List (String × VisObj)) (pad : ℚ)
    (ids : List String) (v : ℚ × ℚ) (b : Bool) (pr : String × String)
    (h1 : pr.1 ∈ ids) (h2 : pr.2 ∈ ids) :
    (overlapStep all pad (ids.map (fun i => (i, v)), b) pr).1 =
      ids.map (fun i => (i, v)) := by
  rw [overlapStep]
  split
  · simp only [getPos_const v h1, getPos_const v h2, sub_self, zero_div, zero_mul,
      sub_zero, add_zero]
    have hv : (v.1, v.2) = v := rfl
    rw [hv, setPos_const, setPos_const]
  · rfl

theorem overlapFold_const (all : List (String × VisObj)) (pad : ℚ)
    (ids : List String) (v : ℚ × ℚ) (pairs : List (String × String)) :
    ∀ (b : Bool), (∀ pr ∈ pairs, pr.1 ∈ ids ∧ pr.2 ∈ ids) →
      (pairs.foldl (overlapStep all pad) (ids.map (fun i => (i, v)), b)).1 =
        ids.map (fun i => (i, v)) := by
  induction pairs with
  | nil => intro b _; rfl
  | cons pr rest ih =>
    intro b hmem
    rw [List.foldl_cons]
    have hp := hmem pr (List.mem_cons_self _ _)
    have hfst := overlapStep_const all pad ids v b pr hp.1 hp.2
    have heq : overlapStep all pad (ids.map (fun i => (i, v)), b) pr =
        (ids.map (fun i => (i, v)),
          (overlapStep all pad (ids.map (fun i => (i, v)), b) pr).2) := by
      conv_lhs => rw [show overlapStep all pad (ids.map (fun i => (i, v)), b) pr =
        ((overlapStep all pad (ids.map (fun i => (i, v)), b) pr).1,
         (overlapStep all pad (ids.map (fun i => (i, v)), b) pr).2) from rfl]
      rw [hfst]
    rw [heq]
    exact ih _ (fun q hq => hmem q (List.mem_cons_of_mem _ hq))

theorem mem_orderedPairs {keys : List String} {pr : String × String}
    (h : pr ∈ orderedPairs keys) : pr.1 ∈ keys ∧ pr.2 ∈ keys := by
  simp only [orderedPairs, List.mem_flatMap, List.mem_map, List.mem_filter] at h
  rcases h with ⟨i, hi, j, hj, hij⟩
  rw [← hij]
  exact ⟨hi, hj.1⟩

/-- C7 amended (fixed-point half): a configuration in which every object
sits at the same center is untouched by `_resolve_overlaps` — the pushed
displacement is zero whenever the connecting vector is zero, so
coincident overlapping objects are never separated. -/
theorem resolveOverlaps_coincident_fixed (all : List (String × VisObj))
    (pad : ℚ) (ids : List String) (v : ℚ × ℚ) :
    resolve_overlaps (ids.map (fun i => (i, v))) all pad =
      ids.map (fun i => (i, v)) := by
  rw [resolve_overlaps]
  have hkeys : (ids.map (fun i => (i, v))).map Prod.fst = ids := by
    rw [List.map_map, show (Prod.fst ∘ fun i : String => (i, v)) = id from rfl,
      List.map_id]
  have hsweep : ∀ (ps : PosMap), ps = ids.map (fun i => (i, v)) →
      (overlapSweep all pad ps).1 = ids.map (fun i => (i, v)) := by
    intro ps hps
    subst hps
    rw [overlapSweep, hkeys]
    exact overlapFold_const all pad ids v _ false
      (fun pr hpr => mem_orderedPairs hpr)
  induction (5 : ℕ) with
  | zero => rfl
  | succ n ih =>
    rw [resolveOverlapsGo]
    have h1 := hsweep (ids.map (fun i => (i, v))) rfl
    split
    · rw [h1]
      exact ih
    · exact h1

/-- Two 30x40 objects, the configuration of the C7 statements. -/
def ovSizes : List (String × VisObj) :=
  [("a", ⟨some 30, some 40, none, none, none⟩),
   ("b", ⟨some 30, some 40, none, none, none⟩)]

/-- Overlapping pair with distinct centers (a 3-4-5 offset, so every
square root taken during the run is exact). -/
def ovApart : PosMap := [("a", (0, 0)), ("b", (30, 40))]

/-- The positions `ovApart` reaches after the overlap pass. -/
def ovSeparated : PosMap := [("a", (-30, -40)), ("b", (60, 80))]

theorem qSqrt_2500 : qSqrt 2500 = 50 := by
  rw [qSqrt]
  norm_num [Rat.num_ofNat]
  rw [show Int.toNat 2500 = 2500 from rfl, show natSqrt32 2500 = 50 from by decide]
  norm_num

theorem qSqrt_22500 : qSqrt 22500 = 150 := by
  rw [qSqrt]
  norm_num [Rat.num_ofNat]
  rw [show Int.toNat 22500 = 22500 from rfl, show natSqrt32 22500 = 150 from by decide]
  norm_num

theorem ovStep1 : overlapStep ovSizes 50 (ovApart, false) ("a", "b") =
    (ovSeparated, true) := by
  norm_num [overlapStep, getPos, setPos, lookupD, ovApart, ovSizes, ovSeparated, objW,
    objH, noObj, qSqrt_2500, max_def, (show ("a" : String) ≠ "b" by decide),
    (show ("b" : String) ≠ "a" by decide)]

theorem ovStep2 : overlapStep ovSizes 50 (ovSeparated, true) ("b", "a") =
    (ovSeparated, true) := by
  norm_num [overlapStep, getPos, setPos, lookupD, ovSizes, ovSeparated, objW, objH,
    noObj, max_def, (show ("a" : String) ≠ "b" by decide),
    (show ("b" : String) ≠ "a" by decide)]

theorem ovStep3 : overlapStep ovSizes 50 (ovSeparated, false) ("a", "b") =
    (ovSeparated, false) := by
  norm_num [overlapStep, getPos, setPos, lookupD, ovSizes, ovSeparated, objW, objH,
    noObj, max_def, (show ("a" : String) ≠ "b" by decide),
    (show ("b" : String) ≠ "a" by decide)]

theorem ovStep4 : overlapStep ovSizes 50 (ovSeparated, false) ("b", "a") =
    (ovSeparated, false) := by
  norm_num [overlapStep, getPos, setPos, lookupD, ovSizes, ovSeparated, objW, objH,
    noObj, max_def, (show ("a" : String) ≠ "b" by decide),
    (show ("b" : String) ≠ "a" by decide)]

theorem ovSweep1 : overlapSweep ovSizes 50 ovApart = (ovSeparated, true) := by
  rw [overlapSweep, show ovApart.map Prod.fst = ["a", "b"] from rfl,
    show orderedPairs ["a", "b"] = [("a", "b"), ("b", "a")] from rfl,
    List.foldl_cons, ovStep1, List.foldl_cons, ovStep2, List.foldl_nil]

theorem ovSweep2 : overlapSweep ovSizes 50 ovSeparated = (ovSeparated, false) := by
  rw [overlapSweep, show ovSeparated.map Prod.fst = ["a", "b"] from rfl,
    show orderedPairs ["a", "b"] = [("a", "b"), ("b", "a")] from rfl,
    List.foldl_cons, ovStep3, List.foldl_cons, ovStep4, List.foldl_nil]

theorem ovApart_resolved : resolve_overlaps ovApart ovSizes 50 = ovSeparated := by
  have h5 : resolve_overlaps ovApart ovSizes 50 =
      (if (overlapSweep ovSizes 50 ovApart).2 then
        resolveOverlapsGo ovSizes 50 4 (overlapSweep ovSizes 50 ovApart).1
      else (overlapSweep ovSizes 50 ovApart).1) := rfl
  have h4 : resolveOverlapsGo ovSizes 50 4 ovSeparated =
      (if (overlapSweep ovSizes 50 ovSeparated).2 then
        resolveOverlapsGo ovSizes 50 3 (overlapSweep ovSizes 50 ovSeparated).1
      else (overlapSweep ovSizes 50 ovSeparated).1) := rfl
  rw [h5, ovSweep1]
  rw [show (((ovSeparated, true) : PosMap × Bool).2 : Bool) = true from rfl, if_pos rfl]
  rw [show (((ovSeparated, true) : PosMap × Bool).1 : PosMap) = ovSeparated from rfl,
    h4, ovSweep2]
  rfl

/-- C7 counterexample: two 30x40 objects whose padded bounding boxes
overlap and whose centers coincide are returned by `_resolve_overlaps`
exactly where they started — their center distance stays 0, while the
claimed lower bound (half-diagonal sum plus padding) is 100. -/
theorem overlapping_coincident_not_separated_counterexample :
    resolve_overlaps [("a", ((0 : ℚ), (0 : ℚ))), ("b", (0, 0))] ovSizes 50 =
      [("a", (0, 0)), ("b", (0, 0))] ∧
    (|(0 : ℚ) - 0| < 30 / 2 + 30 / 2 + 50 ∧ |(0 : ℚ) - 0| < 40 / 2 + 40 / 2 + 50) ∧
    (qSqrt (30 * 30 + 40 * 40) + qSqrt (30 * 30 + 40 * 40)) / 2 + 50 = 100 ∧
    ((0 : ℚ) < 100) := by
  refine ⟨?_, by norm_num, ?_, by norm_num⟩
  · exact resolveOverlaps_coincident_fixed ovSizes 50 ["a", "b"] (0, 0)
  · norm_num [qSqrt_2500]

/-- C7 amended: `_resolve_overlaps` is best-effort.  An overlapping pair
whose centers coincide receives zero displacement and is left exactly in
place (any fully coincident configuration is a fixed point of the pass),
so the claimed separation bound can fail; a pair at distinct centers is
pushed apart along the connecting vector — on the concrete overlapping
3-4-5 configuration the pass ends with center distance 150, at least the
half-diagonal sum plus padding (100). -/
theorem resolve_overlaps_best_effort :
    (∀ (all : List (String × VisObj)) (pad : ℚ) (ids : List String) (v : ℚ × ℚ),
      resolve_overlaps (ids.map (fun i => (i, v))) all pad =
        ids.map (fun i => (i, v))) ∧
    resolve_overlaps ovApart ovSizes 50 = ovSeparated ∧
    qSqrt ((60 - (-30 : ℚ)) * (60 - (-30)) + (80 - (-40)) * (80 - (-40))) = 150 ∧
    (qSqrt (30 * 30 + 40 * 40) + qSqrt (30 * 30 + 40 * 40)) / 2 + 50 ≤ 150 := by
  refine ⟨?_, ovApart_resolved, ?_, ?_⟩
  · intro all pad ids v
    exact resolveOverlaps_coincident_fixed all pad ids v
  · norm_num [qSqrt_22500]
  · norm_num [qSqrt_2500]


/-! ### C8: layouts on empty and singleton inputs -/

/-- A single 50×50 device object, not yet positioned. -/
def singObj : VisObj := ⟨some 50, some 50, none, none, none⟩

/-- An object set holding exactly the one device `d` and nothing else. -/
def singletonObjs : VisObjects := ⟨[("d", singObj)], [], []⟩

/-- Concrete evaluation: the circular layout (default paddings 20/250)
places the single 50×50 device at rounded position `(275, -25)` — outer
radius `max(70/(2π), 300) = 300`, angle `0`, corner offset `-25`. -/
theorem circular_singleton_eval :
    (layout_algorithm_circular qPi qCos qSin singletonObjs 20 250).devices =
      [("d", { singObj with x := some 275, y := some (-25) })] := by
  norm_num [layout_algorithm_circular, singletonObjs, singObj, maxSize, ringPlace,
    patternGroupsOf, groupPairs, setObjXY, pyRound, qPi, qCos, qSin, objW, objH,
    lookupD, noObj, List.enum, max_def]
  simp only [Int.fract]
  norm_num

/-- Concrete evaluation: the grid layout (default paddings 50/30) places
the single 50×50 device at `(50, 50)` — macro position `(0, 0)` plus
relative `(0, 0)` plus one padding in each coordinate. -/
theorem grid_singleton_eval :
    (layout_algorithm_grid singletonObjs 50 30).devices =
      [("d", { singObj with x := some 50, y := some 50 })] := by
  norm_num [layout_algorithm_grid, singletonObjs, singObj, groupPairs, ceilSqrt,
    gridRelPositions, gridGroupBounds, gridMacroPositions, setObjXY, memKeys,
    pyRound, objW, objH, lookupD, noObj, max_def,
    List.filterMap_cons, List.filterMap_nil, show natSqrt32 1 = 1 by decide]

/-- C8 counterexample: the circular layout does not place a singleton
object set at the origin — the single 50×50 device ends up at
`(275, -25)`, on the outer ring of radius 300, not at `(0, 0)`. -/
theorem circular_singleton_not_origin_counterexample :
    (layout_algorithm_circular qPi qCos qSin singletonObjs 20 250).devices =
      [("d", { singObj with x := some 275, y := some (-25) })] ∧
    (layout_algorithm_circular qPi qCos qSin singletonObjs 20 250).devices ≠
      [("d", { singObj with x := some 0, y := some 0 })] := by
  refine ⟨circular_singleton_eval, ?_⟩
  rw [circular_singleton_eval]
  intro hEq
  simp [singObj] at hEq

/-- C8 (amended): every layout strategy returns an empty object set
unchanged (links untouched) and accepts a singleton object set without
error; the force-directed and clustered strategies place the single
object at the origin, while the circular and grid strategies place it at
strategy-specific non-origin coordinates — `(275, -25)` and `(50, 50)`
for a 50×50 device under the default paddings. -/
theorem layout_trivial_inputs :
    (∀ (piQ : ℚ) (cosQ sinQ : ℚ → ℚ) (pad cpad : ℚ) (links : List VisLink),
      layout_algorithm_circular piQ cosQ sinQ ⟨[], [], links⟩ pad cpad =
        ⟨[], [], links⟩) ∧
    (∀ (pad gpad : ℚ) (links : List VisLink),
      layout_algorithm_grid ⟨[], [], links⟩ pad gpad = ⟨[], [], links⟩) ∧
    (∀ (piQ : ℚ) (cosQ sinQ : ℚ → ℚ) (pad : ℚ) (links : List VisLink),
      layout_algorithm_force_directed piQ cosQ sinQ ⟨[], [], links⟩ pad =
        ⟨[], [], links⟩) ∧
    (∀ (pad : ℚ) (links : List VisLink),
      layout_algorithm_clustered ⟨[], [], links⟩ pad = ⟨[], [], links⟩) ∧
    (∀ (piQ : ℚ) (cosQ sinQ : ℚ → ℚ) (pad : ℚ) (k : String) (o : VisObj),
      layout_algorithm_force_directed piQ cosQ sinQ ⟨[(k, o)], [], []⟩ pad =
        ⟨[(k, { o with x := some 0, y := some 0 })], [], []⟩) ∧
    (∀ (pad : ℚ) (k : String) (o : VisObj),
      layout_algorithm_clustered ⟨[(k, o)], [], []⟩ pad =
        ⟨[(k, { o with x := some 0, y := some 0 })], [], []⟩) ∧
    (layout_algorithm_circular qPi qCos qSin singletonObjs 20 250).devices =
      [("d", { singObj with x := some 275, y := some (-25) })] ∧
    (layout_algorithm_grid singletonObjs 50 30).devices =
      [("d", { singObj with x := some 50, y := some 50 })] := by
  refine ⟨?_, ?_, ?_, ?_, ?_, ?_, circular_singleton_eval, grid_singleton_eval⟩
  · intro piQ cosQ sinQ pad cpad links
    norm_num [layout_algorithm_circular, maxSize]
  · intro pad gpad links
    norm_num [layout_algorithm_grid, groupPairs]
  · intro piQ cosQ sinQ pad links
    norm_num [layout_algorithm_force_directed, allObjects]
  · intro pad links
    norm_num [layout_algorithm_clustered, allObjects]
  · intro piQ cosQ sinQ pad k o
    norm_num [layout_algorithm_force_directed, allObjects, memKeys, setObjXY]
  · intro pad k o
    norm_num [layout_algorithm_clustered, clusteredMain, allObjects, memKeys,
      setObjXY, buildGraph, clustersOf, bfsGo, lookupList, lookupD, noObj]

end NetConf
